import Mathlib

/-!
# CheckIPHeader and Print (elements/ip/checkipheader.cc, elements/standard/print.cc)

A shallow embedding of the Click elements `CheckIPHeader` (its constructor,
`notify_noutputs`, `configure`, `drop_it` and `simple_action`) and `Print`
(its constructor, `configure` and `simple_action`), followed by theorems
about them.

Conventions.
* A byte is a `Fin 256`; packet data is a list of bytes.
* A memory access is checked: a read yields `none` when it leaves the
  packet or the blocklist array, a write when it leaves the scratch buffer,
  and a `simple_action` yields `none` exactly when some access does.
* `u_int` values are natural numbers below `2 ^ 32`.  A `u_int` that the
  code fills or reads through a byte pointer (`ip_src.s_addr`, the address
  written by `cp_ip_address`) is composed from its four bytes in memory
  order by `u_int_of_bytes`.
* An `int` is a 32-bit two's-complement value: the drop counter and the
  size of the scratch buffer are computed with `wrap_int`.
* Effects of an element (log lines, pushes to an output, packet kills) are
  recorded as a list of `Event`s in program order.
* The userlevel build is embedded (`#ifndef __KERNEL__`).
* Functions of the repository that the two files call and that are not
  among the sources are parameters (`ConfParse`, `PrintEnv`, the checksum),
  with an instance modelled from the specification for concrete inputs.
-/

namespace Click

/-- One octet of packet memory. -/
abbrev Byte := Fin 256

/-- A `String` of the configuration layer, as its characters. -/
abbrev CStr := List Char

/-- A packet: its data bytes and its IP-header annotation (the offset of the
header within the data once `set_ip_header` has run, `none` before). -/
structure Packet where
  data : List Byte
  ip_header : Option Nat
deriving DecidableEq

/-- The length of the packet data, `p->length()`. -/
def Packet.length (p : Packet) : Nat := p.data.length

/-- `p->set_ip_header(ip)` with `ip = p->data()`: the annotation points at
offset 0 of the data. -/
def Packet.set_ip_header (p : Packet) (off : Nat) : Packet :=
  { p with ip_header := some off }

/-- An observable effect of an element. -/
inductive Event where
  | click_chatter (msg : String)
  | push (port : Nat) (p : Packet)
  | kill (p : Packet)
deriving DecidableEq

/-- The fields of a `CheckIPHeader` element.  `_bad_src` is the heap array
(`[]` for the null pointer), `_n_bad_src` its stored count, `_drops` the
drop counter and `_noutputs` the number of output ports of the element.
The header declaring them is not among the sources; the counter is taken as
a C++ `int` of 32 bits, whose values lie between `-2 ^ 31` and
`2 ^ 31 - 1`. -/
structure CheckIPHeader where
  _bad_src : List Nat
  _n_bad_src : Nat
  _drops : Int
  _noutputs : Nat
deriving DecidableEq

/-- The result of an `int` computation whose exact value is `x`: the value
wrapped to 32 bits in two's complement, so that one more than the maximum
`2 ^ 31 - 1` is the minimum `-2 ^ 31`. -/
def wrap_int (x : Int) : Int := (x + 2147483648) % 4294967296 - 2147483648

/-- `sizeof(click_ip)`: the fixed IPv4 header of 20 bytes. -/
def sizeof_click_ip : Nat := 20

/-- The constructor (lines 27-32): `_bad_src(0)`, `_drops(0)`, one input and
one output.  `_n_bad_src` is not initialised by the constructor, so its
value `junk` is a parameter. -/
def CheckIPHeader.ctor (junk : Nat) : CheckIPHeader :=
  { _bad_src := [], _n_bad_src := junk, _drops := 0, _noutputs := 1 }

/-- `notify_noutputs(int n)` (lines 45-49): `set_noutputs(n < 2 ? 1 : 2)`. -/
def notify_noutputs (e : CheckIPHeader) (n : Int) : CheckIPHeader :=
  { e with _noutputs := if n < 2 then 1 else 2 }

/-- A host `u_int` composed from four bytes in memory order. -/
def u_int_of_bytes (b0 b1 b2 b3 : Nat) : Nat :=
  b0 + 256 * b1 + 65536 * b2 + 16777216 * b3

/-! ## The configuration parser (confparse.hh) -/

/-- The functions of `confparse.hh` that `configure` calls, taken as
parameters since their code is not among the sources.
`cp_argvec` splits a configuration string into its arguments;
`cp_ip_address s` parses an address at the start of `s` and yields it with
the unparsed rest, or fails; `cp_eat_space` removes leading white space.
The two laws say that they return a suffix of their input and that a
successful address parse consumes input, which is what makes the
`while (s)` loop of `configure` terminate. -/
structure ConfParse where
  cp_argvec : CStr → List CStr
  cp_ip_address : CStr → Option (Nat × CStr)
  cp_eat_space : CStr → CStr
  ip_address_consumes : ∀ s a r, cp_ip_address s = some (a, r) → r.length < s.length
  eat_space_le : ∀ s, (cp_eat_space s).length ≤ s.length

/-- Lines 70-74 of `configure`: scan `ips` for `a` and `push_back` it only
when no entry equals it. -/
def push_unless_repeat (ips : List Nat) (a : Nat) : List Nat :=
  if ips.any (fun x => x == a) then ips else ips ++ [a]

/-- The outcome of the `while (s)` loop of `configure`: the vector `ips`
when the string is used up, or the failure of `cp_ip_address`. -/
inductive LoopResult where
  | done (ips : List Nat)
  | expects_ipaddress
deriving DecidableEq

/-- The loop of lines 65-75 of `configure` over the string `s` with the
vector `ips` built so far. -/
def configure_loop (cp : ConfParse) (s : CStr) (ips : List Nat) : LoopResult :=
  if s = [] then LoopResult.done ips
  else
    match hs : cp.cp_ip_address s with
    | none => LoopResult.expects_ipaddress
    | some (a, rest) =>
      configure_loop cp (cp.cp_eat_space rest) (push_unless_repeat ips a)
termination_by s.length
decreasing_by
  have h1 := cp.ip_address_consumes s a rest hs
  have h2 := cp.eat_space_le rest
  omega

/-- The result of a `configure` call: the returned `int`, the messages sent
to the error handler, and the element after the call. -/
structure Configured where
  ret : Int
  errors : List String
  elt : CheckIPHeader
deriving DecidableEq

/-- Modelled from the spec: `ErrorHandler::error` (error.hh, not among the
sources).  The call "fails configuration with a descriptive message": the
message goes to the diagnostics sink and the value returned is the failure
result, a negative `int` (-1); the element is not touched. -/
def errh_error (msg : String) (e : CheckIPHeader) : Configured :=
  { ret := -1, errors := [msg], elt := e }

/-- `CheckIPHeader::configure` (lines 51-87). -/
def configure (cp : ConfParse) (conf : CStr) (e : CheckIPHeader) : Configured :=
  let args := cp.cp_argvec conf
  if args.length > 1 then
    errh_error "too many arguments to \x60CheckIPHeader([ADDRS])\x27" e
  else
    let ips : List Nat := [0, 0xffffffff]
    let r : LoopResult :=
      match args with
      | [] => LoopResult.done ips
      | s :: _ => configure_loop cp s ips
    match r with
    | LoopResult.expects_ipaddress => errh_error "expects IPADDRESS" e
    | LoopResult.done ips =>
      let n := ips.length
      { ret := 0, errors := [],
        elt := { e with _n_bad_src := n, _bad_src := if n ≠ 0 then ips else [] } }

/-! ## Packet processing -/

/-- `CheckIPHeader::drop_it` (lines 89-100): the element after the call and
the effects, in order.  `_drops++` is an `int` increment: it wraps. -/
def drop_it (e : CheckIPHeader) (p : Packet) : CheckIPHeader × List Event :=
  let log := if e._drops = 0 then [Event.click_chatter "IP checksum failed"] else []
  let e' := { e with _drops := wrap_int (e._drops + 1) }
  if e._noutputs = 2 then (e', log ++ [Event.push 1 p])
  else (e', log ++ [Event.kill p])

/-- The result of a `simple_action` call: the element after the call, the
effects in order, and the returned packet (`none` for a null return; a
returned packet is what the caller forwards to output 0). -/
structure Action where
  elt : CheckIPHeader
  events : List Event
  ret : Option Packet
deriving DecidableEq

/-- The label `bad:` of `simple_action` (lines 151-153). -/
def bad (e : CheckIPHeader) (p : Packet) : Action :=
  { elt := (drop_it e p).1, events := (drop_it e p).2, ret := none }

/-- A checked read of the byte at offset `i`. -/
def rd8 (d : List Byte) (i : Nat) : Option Nat := (d[i]?).map Fin.val

/-- A checked read of the first `n` bytes. -/
def rdn (d : List Byte) (n : Nat) : Option (List Byte) :=
  if n ≤ d.length then some (d.take n) else none

/-- The loop of lines 139-141: entries `i, i+1, ..` of `_bad_src`, `k` of
them, are compared with `src`.  `some true` is `goto bad`, `some false` is
falling out of the loop, `none` is a read outside the array. -/
def bad_src_scan (bad_src : List Nat) (src : Nat) : Nat → Nat → Option Bool
  | _, 0 => some false
  | i, k + 1 =>
    match bad_src[i]? with
    | none => none
    | some b => if src = b then some true else bad_src_scan bad_src src (i + 1) k

/-- `CheckIPHeader::simple_action` (lines 102-154), with the checksum
primitive `in_cksum` (glue, not among the sources) as a parameter.
`click_ip.h` is not among the sources; the fields are those of the IPv4
header: `ip_v` is the high and `ip_hl` the low nibble of byte 0, `ip_len` is
bytes 2-3 in network order and `ip_src` bytes 12-15. -/
def simple_action (in_cksum : List Byte → Nat) (e : CheckIPHeader) (p : Packet) :
    Option Action :=
  if p.length < sizeof_click_ip then some (bad e p)
  else
    match rd8 p.data 0 with
    | none => none
    | some vhl =>
      if vhl / 16 ≠ 4 then some (bad e p)
      else
        let hlen := (vhl % 16) * 4
        if hlen < sizeof_click_ip then some (bad e p)
        else if hlen > p.length then some (bad e p)
        else
          match rdn p.data hlen with
          | none => none
          | some hdr =>
            if in_cksum hdr ≠ 0 then some (bad e p)
            else
              match rd8 p.data 2, rd8 p.data 3 with
              | some l0, some l1 =>
                if l0 * 256 + l1 < hlen then some (bad e p)
                else
                  match rd8 p.data 12, rd8 p.data 13, rd8 p.data 14, rd8 p.data 15 with
                  | some s0, some s1, some s2, some s3 =>
                    match bad_src_scan e._bad_src (u_int_of_bytes s0 s1 s2 s3) 0 e._n_bad_src with
                    | none => none
                    | some true => some (bad e p)
                    | some false =>
                      some { elt := e, events := [], ret := some (p.set_ip_header 0) }
                  | _, _, _, _ => none
              | _, _ => none

/-! ## Views of the header fields, total on every byte list -/

/-- The byte at offset `i` as a number, 0 outside the data. -/
def byte_at (d : List Byte) (i : Nat) : Nat := (d.getD i 0).val

/-- The version field `ip_v`: the high nibble of byte 0. -/
def ip_v (d : List Byte) : Nat := byte_at d 0 / 16

/-- The header-length field `ip_hl`: the low nibble of byte 0. -/
def ip_hl (d : List Byte) : Nat := byte_at d 0 % 16

/-- The header length in bytes, `hlen = ip->ip_hl << 2`. -/
def ip_hlen (d : List Byte) : Nat := ip_hl d * 4

/-- The total-length field in host order, `ntohs(ip->ip_len)`. -/
def ip_len (d : List Byte) : Nat := byte_at d 2 * 256 + byte_at d 3

/-- The source address `ip->ip_src.s_addr`. -/
def ip_src (d : List Byte) : Nat :=
  u_int_of_bytes (byte_at d 12) (byte_at d 13) (byte_at d 14) (byte_at d 15)

/-- The first six guards of `simple_action`, on the header fields. -/
def guards_1_6 (in_cksum : List Byte → Nat) (d : List Byte) : Prop :=
  sizeof_click_ip ≤ d.length ∧ ip_v d = 4 ∧ sizeof_click_ip ≤ ip_hlen d ∧
    ip_hlen d ≤ d.length ∧ in_cksum (d.take (ip_hlen d)) = 0 ∧ ip_hlen d ≤ ip_len d

/-- All seven guards: the first six and a source address that equals no
blocklist entry. -/
def guards (in_cksum : List Byte → Nat) (e : CheckIPHeader) (d : List Byte) : Prop :=
  guards_1_6 in_cksum d ∧ ip_src d ∉ e._bad_src

instance (in_cksum : List Byte → Nat) (d : List Byte) : Decidable (guards_1_6 in_cksum d) := by
  unfold guards_1_6
  exact inferInstance

instance (in_cksum : List Byte → Nat) (e : CheckIPHeader) (d : List Byte) :
    Decidable (guards in_cksum e d) := by
  unfold guards
  exact inferInstance

/-- The element holds a blocklist as `configure` leaves it: the stored count
is the size of the array. -/
def CheckIPHeader.configured (e : CheckIPHeader) : Prop :=
  e._n_bad_src = e._bad_src.length

instance (e : CheckIPHeader) : Decidable e.configured :=
  inferInstanceAs (Decidable (e._n_bad_src = e._bad_src.length))

/-- The counter of the element holds an `int` value. -/
def CheckIPHeader.drops_is_int (e : CheckIPHeader) : Prop :=
  -2147483648 ≤ e._drops ∧ e._drops ≤ 2147483647

instance (e : CheckIPHeader) : Decidable e.drops_is_int :=
  inferInstanceAs (Decidable (-2147483648 ≤ e._drops ∧ e._drops ≤ 2147483647))

/-- An event is a log line. -/
def Event.is_chatter : Event → Bool
  | Event.click_chatter _ => true
  | _ => false

/-- The effects other than log lines, in order. -/
def non_log (evs : List Event) : List Event :=
  evs.filter (fun ev => !ev.is_chatter)

/-- The byte `b` with bit `k` inverted. -/
def Byte.flip (b : Byte) (k : Nat) : Byte :=
  ⟨(b.val ^^^ 2 ^ k) % 256, Nat.mod_lt _ (by decide)⟩

/-- The data `d` with bit `k` of the byte at offset `i` inverted and every
other byte unchanged. -/
def flip_bit (d : List Byte) (i k : Nat) : List Byte :=
  d.set i (Byte.flip (d.getD i 0) k)

/-! ## The checksum primitive -/

/-- The sum of the 16-bit words of `d`; a trailing odd byte is padded with
a zero byte. -/
def sum16 : List Byte → Nat
  | [] => 0
  | [b] => b.val * 256
  | b0 :: b1 :: rest => b0.val * 256 + b1.val + sum16 rest

/-- Modelled from the spec: `in_cksum` (glue, not among the sources), the
"standard ones-complement sum over the header bytes" (RFC 1071): the 16-bit
words are added in a 32-bit accumulator, the carries are folded back twice
and the 16-bit complement is returned. -/
def in_cksum (d : List Byte) : Nat :=
  let sum := sum16 d % 4294967296
  let sum1 := sum % 65536 + sum / 65536
  let sum2 := sum1 + sum1 / 65536
  65535 - sum2 % 65536

/-! ## A dotted-decimal parser -/

/-- One decimal part of an address: one or more digits with value at most
255, and the rest of the string. -/
def cp_ip_part (s : CStr) : Option (Nat × CStr) :=
  let ds := s.takeWhile Char.isDigit
  if ds = [] then none
  else
    let v := ds.foldl (fun acc c => acc * 10 + (c.toNat - 48)) 0
    if v > 255 then none else some (v, s.dropWhile Char.isDigit)

/-- A dot followed by a decimal part. -/
def cp_ip_dot_part (s : CStr) : Option (Nat × CStr) :=
  match s with
  | '.' :: r => cp_ip_part r
  | _ => none

/-- Modelled from the spec: `cp_ip_address` (confparse, not among the
sources) on a "dotted-decimal IPv4 literal": four decimal parts separated by
dots; the address is the `u_int` whose bytes in memory order are the four
parts. -/
def model_cp_ip_address (s : CStr) : Option (Nat × CStr) :=
  match cp_ip_part s with
  | none => none
  | some (b0, r0) =>
    match cp_ip_dot_part r0 with
    | none => none
    | some (b1, r1) =>
      match cp_ip_dot_part r1 with
      | none => none
      | some (b2, r2) =>
        match cp_ip_dot_part r2 with
        | none => none
        | some (b3, r3) => some (u_int_of_bytes b0 b1 b2 b3, r3)

/-- Modelled from the spec: `cp_eat_space` (confparse, not among the
sources) removes the leading white space of a "space-separated list". -/
def model_cp_eat_space (s : CStr) : CStr := s.dropWhile Char.isWhitespace

/-- The pieces of `s` between commas, `cur` being the piece under way. -/
def split_commas (cur : CStr) : CStr → List CStr
  | [] => [cur]
  | c :: r => if c = ',' then cur :: split_commas [] r else split_commas (cur ++ [c]) r

/-- Modelled from the spec: `cp_argvec` (confparse, not among the sources):
an empty configuration string has no argument, any other has its
comma-separated pieces as arguments. -/
def model_cp_argvec (conf : CStr) : List CStr :=
  if conf = [] then [] else split_commas [] conf

/-- The dotted-decimal parser as an instance of the parameters of
`configure`, used for the concrete configuration strings of the scenarios. -/
def confparse : ConfParse where
  cp_argvec := model_cp_argvec
  cp_ip_address := model_cp_ip_address
  cp_eat_space := model_cp_eat_space
  ip_address_consumes := by
    have part : ∀ (s : CStr) v r, cp_ip_part s = some (v, r) → r.length < s.length := by
      intro s v r h
      unfold cp_ip_part at h
      simp only at h
      split at h
      · exact absurd h (by simp)
      · rename_i hne
        split at h
        · exact absurd h (by simp)
        · simp only [Option.some.injEq, Prod.mk.injEq] at h
          have hlen := congrArg List.length (List.takeWhile_append_dropWhile Char.isDigit s)
          rw [List.length_append] at hlen
          have hpos : 0 < (s.takeWhile Char.isDigit).length := List.length_pos.mpr hne
          rw [← h.2]
          omega
    have dot : ∀ (s : CStr) v r, cp_ip_dot_part s = some (v, r) → r.length < s.length := by
      intro s v r h
      unfold cp_ip_dot_part at h
      split at h
      · have := part _ v r h
        simp only [List.length_cons]
        omega
      · exact absurd h (by simp)
    intro s a r h
    unfold model_cp_ip_address at h
    split at h
    · exact absurd h (by simp)
    · rename_i b0 r0 h0
      split at h
      · exact absurd h (by simp)
      · rename_i b1 r1 h1
        split at h
        · exact absurd h (by simp)
        · rename_i b2 r2 h2
          split at h
          · exact absurd h (by simp)
          · rename_i b3 r3 h3
            simp only [Option.some.injEq, Prod.mk.injEq] at h
            have := part _ _ _ h0
            have := dot _ _ _ h1
            have := dot _ _ _ h2
            have := dot _ _ _ h3
            rw [← h.2]
            omega
  eat_space_le := fun s => by
    have hlen := congrArg List.length (List.takeWhile_append_dropWhile Char.isWhitespace s)
    rw [List.length_append] at hlen
    unfold model_cp_eat_space
    omega

/-- The addresses that the loop of `configure` parses from the argument `s`,
in order: `cp_ip_address` and `cp_eat_space` applied in turn until the
string is used up; `none` when some literal fails to parse. -/
def parsed_addrs (cp : ConfParse) (s : CStr) : Option (List Nat) :=
  if s = [] then some []
  else
    match hs : cp.cp_ip_address s with
    | none => none
    | some (a, rest) => (parsed_addrs cp (cp.cp_eat_space rest)).map (fun as => a :: as)
termination_by s.length
decreasing_by
  have h1 := cp.ip_address_consumes s a rest hs
  have h2 := cp.eat_space_le rest
  omega

/-! ## Sequences of calls -/

/-- A call on an element. -/
inductive Call where
  | configure (conf : CStr)
  | simple_action (p : Packet)

/-- The summary of a sequence of calls: the element after them, all effects
in order, and the number of `simple_action` calls that returned null. -/
structure Run where
  elt : CheckIPHeader
  events : List Event
  rejected : Nat
deriving DecidableEq

/-- The calls `cs` made in order on the element `e`. -/
def run (cp : ConfParse) (in_cksum : List Byte → Nat) : CheckIPHeader → List Call → Option Run
  | e, [] => some { elt := e, events := [], rejected := 0 }
  | e, Call.configure conf :: cs => run cp in_cksum (configure cp conf e).elt cs
  | e, Call.simple_action p :: cs =>
    match simple_action in_cksum e p with
    | none => none
    | some a =>
      match run cp in_cksum a.elt cs with
      | none => none
      | some r =>
        some { elt := r.elt, events := a.events ++ r.events,
               rejected := (if a.ret.isNone then 1 else 0) + r.rejected }

/-! ## Outcomes of a packet and the data of the scenarios -/

/-- The packet `p` was forwarded to output 0: it is returned, annotated, and
nothing else happened. -/
def Action.forward_0 (a : Action) (p : Packet) : Prop :=
  a.ret = some (p.set_ip_header 0) ∧ a.events = []

/-- The packet `p` was forwarded to output 1: null is returned and, log
lines apart, the only effect is the push of `p` to output 1. -/
def Action.forward_1 (a : Action) (p : Packet) : Prop :=
  a.ret = none ∧ non_log a.events = [Event.push 1 p]

/-- The packet `p` was destroyed: null is returned and, log lines apart, the
only effect is the kill of `p`. -/
def Action.destroy (a : Action) (p : Packet) : Prop :=
  a.ret = none ∧ non_log a.events = [Event.kill p]

/-- A well-formed 20-byte IPv4 header with source 10.0.0.1, destination
10.0.0.2, total length 20 and a correct checksum (0x66e2). -/
def scenario_packet : Packet :=
  { data := [0x45, 0, 0, 20, 0, 0, 0, 0, 64, 6, 0x66, 0xe2, 10, 0, 0, 1, 10, 0, 0, 2],
    ip_header := none }

/-- The element of scenario A: configured with no argument, one output. -/
def scenario_a : CheckIPHeader :=
  { _bad_src := [0, 0xffffffff], _n_bad_src := 2, _drops := 0, _noutputs := 1 }

/-- The element of scenario B: a fresh element after `configure("10.0.0.1")`. -/
def scenario_b : CheckIPHeader :=
  { _bad_src := [0, 0xffffffff, 0x0100000a], _n_bad_src := 3, _drops := 0, _noutputs := 1 }

/-- The element of scenario A with its counter at the maximum of an `int`,
as `2 ^ 31 - 1` rejected packets leave it. -/
def scenario_a_full : CheckIPHeader := { scenario_a with _drops := 2147483647 }

/-- The empty packet. -/
def empty_packet : Packet := { data := [], ip_header := none }

/-- The element of scenario A negotiated to two outputs. -/
def scenario_two_outputs : CheckIPHeader := notify_noutputs scenario_a 2

/-- A freshly constructed element (with 7 as the indeterminate count)
after `configure` with the empty configuration string. -/
def fresh_configured : CheckIPHeader :=
  (configure confparse [] (CheckIPHeader.ctor 7)).elt

/-- Three packets: a short one, the well-formed one, a short one. -/
def three_packets : List Call :=
  [Call.simple_action empty_packet, Call.simple_action scenario_packet,
    Call.simple_action empty_packet]

/-- The weight of the byte at offset `i` in the sum of 16-bit words. -/
def byte_weight (i : Nat) : Nat := if i % 2 = 0 then 256 else 1

/-- The packet `p` with bit `k` of the data byte at offset `i` inverted. -/
def Packet.flip (p : Packet) (i k : Nat) : Packet :=
  { p with data := flip_bit p.data i k }

/-- A valid 20-byte header (total length 28) followed by 8 payload bytes
chosen so that the 28 bytes sum to zero once the header-length field reads 7
instead of 5. -/
def ihl_flip_packet : Packet :=
  { data := [0x45, 0, 0, 28, 0, 0, 0, 0, 64, 6, 0x66, 0xda, 10, 0, 0, 1, 10, 0, 0, 2,
             0xfd, 0xff, 0, 0, 0, 0, 0, 0],
    ip_header := none }

/-! ## Definitions for the shape of the blocklist and the order of the guards -/

/-- The distinct elements of a list in order of first occurrence: every
element is kept where it first occurs and removed further on. -/
def first_occurrences : List Nat → List Nat
  | [] => []
  | a :: as => a :: (first_occurrences as).filter (fun x => x != a)

/-- The first four guards of `simple_action`, the structural ones: they
read the packet length and byte 0 only. -/
def guards_1_4 (d : List Byte) : Prop :=
  sizeof_click_ip ≤ d.length ∧ ip_v d = 4 ∧ sizeof_click_ip ≤ ip_hlen d ∧ ip_hlen d ≤ d.length

/-- The element `e` holding the blocklist array `bs` with stored count `n`. -/
def with_blocklist (e : CheckIPHeader) (bs : List Nat) (n : Nat) : CheckIPHeader :=
  { e with _bad_src := bs, _n_bad_src := n }

/-- A well-formed 20-byte header whose total-length field reads 65535, with
a correct checksum (0x66f6); the packet itself has 20 bytes. -/
def oversize_packet : Packet :=
  { data := [0x45, 0, 0xff, 0xff, 0, 0, 0, 0, 64, 6, 0x66, 0xf6, 10, 0, 0, 1, 10, 0, 0, 2],
    ip_header := none }

instance (d : List Byte) : Decidable (guards_1_4 d) := by
  unfold guards_1_4
  exact inferInstance

/-! ## Print (elements/standard/print.cc) -/

/-- The fields of a `Print` element: the label, the maximum number of bytes
to print and the scratch buffer (`none` for the null pointer, otherwise
the characters of the array, whose length is its capacity).  The header
declaring them is not among the sources; `_bytes` is an `int`. -/
structure Print where
  _label : CStr
  _bytes : Int
  _buf : Option (List Char)
deriving DecidableEq

/-- The constructor (lines 21-25): `_buf = 0`.  `_bytes` is not initialised,
so its value `junk` is a parameter; the label is the empty string. -/
def Print.ctor (junk : Int) : Print :=
  { _label := [], _bytes := junk, _buf := none }

/-- What `Print::configure` calls and is not among the sources, taken as
parameters.  `cp_va_parse conf label bytes` is the call of line 42 with the
current values of the two variables whose addresses it is given: it yields
the returned `int` and the values of `_label` and `_bytes` after the call.
`new_char n` is `new char[n]` for the `int` value `n`: null, or an array of
exactly `n` characters of unspecified content; no array has a negative
size, so the allocation of a negative size yields null. -/
structure PrintEnv where
  cp_va_parse : CStr → CStr → Int → Int × CStr × Int
  new_char : Int → Option (List Char)
  new_char_length : ∀ n buf, new_char n = some buf → (buf.length : Int) = n

/-- The result of a `Print::configure` call: the returned `int`, the
messages `configure` itself sends to the error handler, and the element
after the call. -/
structure PrintConfigured where
  ret : Int
  errors : List String
  elt : Print
deriving DecidableEq

/-- `Print::configure` (lines 38-54).  `_bytes = 24` comes first, then
`cp_va_parse` with the addresses of `_label` and `_bytes`, then, on
success only, the old buffer is deleted and `new char[3*_bytes+1]`
allocated.  The size `3*_bytes+1` is an `int` computation: it wraps.
`errh->error` returns -1. -/
def Print.configure (env : PrintEnv) (conf : CStr) (e : Print) : PrintConfigured :=
  let r := env.cp_va_parse conf e._label 24
  let e1 : Print := { e with _label := r.2.1, _bytes := r.2.2 }
  if r.1 < 0 then { ret := -1, errors := [], elt := e1 }
  else
    match env.new_char (wrap_int (3 * e1._bytes + 1)) with
    | some buf => { ret := 0, errors := [], elt := { e1 with _buf := some buf } }
    | none => { ret := -1, errors := ["out of memory"], elt := { e1 with _buf := none } }

/-- One digit of the conversion "%x": lowercase hexadecimal. -/
def hex_digit (n : Nat) : Char :=
  if n < 10 then Char.ofNat (48 + n) else Char.ofNat (87 + n)

/-- The character NUL that terminates a C string. -/
def nul : Char := Char.ofNat 0

/-- A checked write `buf[i] = c`: `none` outside the array. -/
def wr (buf : List Char) (i : Nat) (c : Char) : Option (List Char) :=
  if i < buf.length then some (buf.set i c) else none

/-- The call `sprintf(_buf + pos, "%02x", v)` for a value `v` below 256:
two hex digits at `pos` and `pos + 1` and the terminating NUL at
`pos + 2`. -/
def sprintf_02x (buf : List Char) (pos v : Nat) : Option (List Char) :=
  match wr buf pos (hex_digit (v / 16)) with
  | none => none
  | some b1 =>
    match wr b1 (pos + 1) (hex_digit (v % 16)) with
    | none => none
    | some b2 => wr b2 (pos + 2) nul

/-- The loop of lines 60-64 of `Print::simple_action`: `k` more iterations
from index `i` with write position `pos`.  The result is the final `pos`
and the buffer, or `none` when a read leaves the packet or a write the
buffer.  `pos` is an `int`; an array has fewer than `2 ^ 31` characters and
every iteration writes at `pos`, so `pos` stays an `int` in every run that
does not leave the buffer. -/
def print_loop (d : List Byte) : Nat → Nat → Nat → List Char → Option (Nat × List Char)
  | 0, _, pos, buf => some (pos, buf)
  | k + 1, i, pos, buf =>
    match d[i]? with
    | none => none
    | some b =>
      match sprintf_02x buf pos (b.val % 256) with
      | none => none
      | some buf1 =>
        if i % 4 = 3 then
          match wr buf1 (pos + 2) ' ' with
          | none => none
          | some buf2 => print_loop d k (i + 1) (pos + 3) buf2
        else print_loop d k (i + 1) (pos + 2) buf1

/-- The C string held in a buffer: the characters before the first NUL. -/
def c_string (buf : List Char) : List Char := buf.takeWhile (fun c => c != nul)

/-- The arguments of the `click_chatter` call of line 66, the data pointer
left out: the label, the packet length and the string in the buffer. -/
structure PrintLine where
  label : CStr
  length : Nat
  preview : List Char
deriving DecidableEq

/-- The result of a `Print::simple_action` call: the element after the call
(its buffer is written), the log line, and the returned packet. -/
structure PrintAction where
  elt : Print
  line : PrintLine
  ret : Packet
deriving DecidableEq

/-- `Print::simple_action` (lines 56-68).  The loop runs while
`i < _bytes && i < p->length()` with `i` unsigned, so `_bytes` is compared
as an unsigned 32-bit value; it makes `min` of the two bounds iterations. -/
def Print.simple_action (e : Print) (p : Packet) : Option PrintAction :=
  match e._buf with
  | none => none
  | some buf =>
    let n := min (e._bytes % 4294967296).toNat p.length
    match print_loop p.data n 0 0 buf with
    | none => none
    | some (pos, buf1) =>
      match wr buf1 pos nul with
      | none => none
      | some buf2 =>
        some { elt := { e with _buf := some buf2 },
               line := { label := e._label, length := p.length, preview := c_string buf2 },
               ret := p }

/-- What the loop of `Print::simple_action` writes for the bytes it visits
from index `i` on: the two characters of each `sprintf`, and the space
after an index that is 3 modulo 4. -/
def rendered_from (i : Nat) : List Byte → List Char
  | [] => []
  | b :: bs =>
    hex_digit (b.val / 16) :: hex_digit (b.val % 16) ::
      ((if i % 4 = 3 then [' '] else []) ++ rendered_from (i + 1) bs)

/-- The two lowercase hexadecimal digits of a byte: its digits in base 16,
with a leading zero when there is only one. -/
def two_hex_digits (b : Byte) : List Char :=
  if b.val < 16 then '0' :: Nat.toDigits 16 b.val else Nat.toDigits 16 b.val

/-- The preview as the specification words it: for each byte in order, from
index `i` on, its two lowercase hex digits, followed by one space when the
index is 3 modulo 4. -/
def hex_preview_from (i : Nat) : List Byte → List Char
  | [] => []
  | b :: bs =>
    two_hex_digits b ++ (if i % 4 = 3 then [' '] else []) ++ hex_preview_from (i + 1) bs

/-- The preview of the bytes `d`, counted from index 0. -/
def hex_preview (d : List Byte) : List Char := hex_preview_from 0 d

/-- A decimal number: the value of a non-empty string of digits. -/
def cp_integer (s : CStr) : Option Int :=
  if s ≠ [] ∧ s.all Char.isDigit then
    some (Int.ofNat (s.foldl (fun acc c => acc * 10 + (c.toNat - 48)) 0))
  else none

/-- Modelled from the spec: `cp_va_parse` (confparse, not among the sources)
for the grammar "LABEL [, MAXBYTES]": a required string and an optional
non-negative integer.  On failure nothing is stored. -/
def model_cp_va_parse (conf : CStr) (label : CStr) (bytes : Int) : Int × CStr × Int :=
  match model_cp_argvec conf with
  | [l] => (0, l, bytes)
  | [l, m] =>
    match cp_integer m with
    | some v => (0, l, v)
    | none => (-1, label, bytes)
  | _ => (-1, label, bytes)

/-- Modelled from the spec: `new char[n]`; the allocation of a non-negative
size succeeds and the array is filled with NUL. -/
def model_new_char (n : Int) : Option (List Char) :=
  if 0 ≤ n then some (List.replicate n.toNat nul) else none

/-- The parameters of `Print::configure` for the concrete scenarios. -/
def print_env : PrintEnv where
  cp_va_parse := model_cp_va_parse
  new_char := model_new_char
  new_char_length := by
    intro n buf h
    unfold model_new_char at h
    split_ifs at h with hn
    simp only [Option.some.injEq] at h
    rw [← h, List.length_replicate]
    exact Int.toNat_of_nonneg hn

/-- A `Print` element configured with label "x" and maximum 1431655766. -/
def print_huge : Print :=
  (Print.configure print_env "x,1431655766".toList (Print.ctor 0)).elt

/-- A `Print` element configured with label "x" and maximum 1431655765. -/
def print_empty_buffer : Print :=
  (Print.configure print_env "x,1431655765".toList (Print.ctor 0)).elt

/-- A `Print` element configured with label "x" and maximum 4. -/
def print_x4 : Print := (Print.configure print_env "x,4".toList (Print.ctor 0)).elt

/-! ## Lemmas on reads and on the blocklist scan -/

theorem rd8_of_lt (d : List Byte) (i : Nat) (h : i < d.length) :
    rd8 d i = some (byte_at d i) := by
  simp [rd8, byte_at, List.getD, List.getElem?_eq_getElem h]

theorem rdn_of_le (d : List Byte) (n : Nat) (h : n ≤ d.length) :
    rdn d n = some (d.take n) := by
  simp [rdn, h]

theorem bad_src_scan_drop (bs : List Nat) (src : Nat) :
    ∀ (k i : Nat), i + k = bs.length →
      bad_src_scan bs src i k = some (decide (src ∈ bs.drop i)) := by
  intro k
  induction k with
  | zero =>
    intro i hi
    have : bs.drop i = [] := List.drop_eq_nil_of_le (by omega)
    simp [bad_src_scan, this]
  | succ k ih =>
    intro i hi
    have hlt : i < bs.length := by omega
    have hd : bs.drop i = bs[i] :: bs.drop (i + 1) := List.drop_eq_getElem_cons hlt
    rw [bad_src_scan, List.getElem?_eq_getElem hlt]
    simp only
    by_cases hsrc : src = bs[i]
    · rw [if_pos hsrc, hd]
      simp only [List.mem_cons, hsrc, true_or, decide_True]
    · rw [if_neg hsrc, ih (i + 1) (by omega), hd]
      simp only [List.mem_cons, hsrc, false_or]

theorem bad_src_scan_configured (e : CheckIPHeader) (src : Nat) (h : e.configured) :
    bad_src_scan e._bad_src src 0 e._n_bad_src = some (decide (src ∈ e._bad_src)) := by
  have := bad_src_scan_drop e._bad_src src e._n_bad_src 0 (by rw [h]; omega)
  simpa using this

/-- `simple_action` on a packet of at least 20 bytes, with every read
resolved: the chain of guards 2-6 followed by the blocklist scan. -/
theorem simple_action_long (ck : List Byte → Nat) (e : CheckIPHeader) (p : Packet)
    (hlen : sizeof_click_ip ≤ p.data.length) :
    simple_action ck e p =
      if ip_v p.data ≠ 4 then some (bad e p)
      else if ip_hlen p.data < sizeof_click_ip then some (bad e p)
      else if ip_hlen p.data > p.data.length then some (bad e p)
      else if ck (p.data.take (ip_hlen p.data)) ≠ 0 then some (bad e p)
      else if ip_len p.data < ip_hlen p.data then some (bad e p)
      else
        match bad_src_scan e._bad_src (ip_src p.data) 0 e._n_bad_src with
        | none => none
        | some true => some (bad e p)
        | some false => some { elt := e, events := [], ret := some (p.set_ip_header 0) } := by
  unfold sizeof_click_ip at hlen
  have h0 := rd8_of_lt p.data 0 (by omega)
  have h2 := rd8_of_lt p.data 2 (by omega)
  have h3 := rd8_of_lt p.data 3 (by omega)
  have h12 := rd8_of_lt p.data 12 (by omega)
  have h13 := rd8_of_lt p.data 13 (by omega)
  have h14 := rd8_of_lt p.data 14 (by omega)
  have h15 := rd8_of_lt p.data 15 (by omega)
  have hl : ¬ p.length < sizeof_click_ip := by
    simp only [Packet.length, sizeof_click_ip]
    omega
  unfold simple_action
  rw [if_neg hl, h0]
  simp only [h2, h3, h12, h13, h14, h15, Packet.length, ip_v, ip_hlen, ip_hl, ip_len, ip_src]
  by_cases h4 : byte_at p.data 0 % 16 * 4 > p.data.length
  · simp only [h4, if_true]
  · rw [rdn_of_le p.data _ (by omega)]

theorem simple_action_short (ck : List Byte → Nat) (e : CheckIPHeader) (p : Packet)
    (h : p.length < sizeof_click_ip) : simple_action ck e p = some (bad e p) := by
  unfold simple_action
  rw [if_pos h]

theorem simple_action_accept (ck : List Byte → Nat) (e : CheckIPHeader) (p : Packet)
    (hc : e.configured) (hg : guards ck e p.data) :
    simple_action ck e p = some { elt := e, events := [], ret := some (p.set_ip_header 0) } := by
  obtain ⟨⟨h1, h2, h3, h4, h5, h6⟩, h7⟩ := hg
  rw [simple_action_long ck e p h1, bad_src_scan_configured e _ hc]
  rw [if_neg (by simp [h2]), if_neg (by omega), if_neg (by omega), if_neg (by simp [h5]),
    if_neg (by omega)]
  simp [h7]

theorem simple_action_reject (ck : List Byte → Nat) (e : CheckIPHeader) (p : Packet)
    (hc : e.configured) (hg : ¬ guards ck e p.data) :
    simple_action ck e p = some (bad e p) := by
  by_cases h1 : sizeof_click_ip ≤ p.data.length
  · rw [simple_action_long ck e p h1, bad_src_scan_configured e _ hc]
    split_ifs with g2 g3 g4 g5 g6
    · rfl
    · rfl
    · rfl
    · rfl
    · rfl
    · by_cases h7 : ip_src p.data ∈ e._bad_src
      · simp [h7]
      · exfalso
        apply hg
        refine ⟨⟨h1, ?_, ?_, ?_, ?_, ?_⟩, h7⟩
        · simpa using g2
        · omega
        · omega
        · simpa using g5
        · omega
  · exact simple_action_short ck e p (by simp only [Packet.length]; omega)

theorem simple_action_null (ck : List Byte → Nat) (e : CheckIPHeader) (p : Packet) (a : Action)
    (h : simple_action ck e p = some a) (hr : a.ret = none) : a = bad e p := by
  by_cases h1 : sizeof_click_ip ≤ p.data.length
  · rw [simple_action_long ck e p h1] at h
    split_ifs at h
    all_goals first | exact (Option.some.inj h).symm | skip
    split at h
    · exact absurd h (by simp)
    · exact (Option.some.inj h).symm
    · have := Option.some.inj h
      rw [← this] at hr
      exact absurd hr (by simp)
  · rw [simple_action_short ck e p (by simp only [Packet.length]; omega)] at h
    exact (Option.some.inj h).symm

theorem bad_ret (e : CheckIPHeader) (p : Packet) : (bad e p).ret = none := rfl

theorem non_log_append (xs ys : List Event) : non_log (xs ++ ys) = non_log xs ++ non_log ys := by
  simp [non_log]

theorem non_log_chatter (msg : String) (xs : List Event) :
    non_log (Event.click_chatter msg :: xs) = non_log xs := by
  simp [non_log, Event.is_chatter]

theorem non_log_push (port : Nat) (p : Packet) (xs : List Event) :
    non_log (Event.push port p :: xs) = Event.push port p :: non_log xs := by
  simp [non_log, Event.is_chatter]

theorem non_log_kill (p : Packet) (xs : List Event) :
    non_log (Event.kill p :: xs) = Event.kill p :: non_log xs := by
  simp [non_log, Event.is_chatter]

theorem non_log_nil : non_log [] = [] := rfl

theorem bad_filter (e : CheckIPHeader) (p : Packet) :
    non_log (bad e p).events =
      if e._noutputs = 2 then [Event.push 1 p] else [Event.kill p] := by
  unfold bad drop_it
  by_cases h2 : e._noutputs = 2 <;> by_cases h0 : e._drops = 0 <;>
    simp [h2, h0, non_log_append, non_log_chatter, non_log_push, non_log_kill, non_log_nil]

theorem bad_elt (e : CheckIPHeader) (p : Packet) :
    (bad e p).elt = { e with _drops := wrap_int (e._drops + 1) } := by
  unfold bad drop_it
  split_ifs <;> rfl

theorem bad_events (e : CheckIPHeader) (p : Packet) :
    (bad e p).events =
      (if e._drops = 0 then [Event.click_chatter "IP checksum failed"] else []) ++
        [if e._noutputs = 2 then Event.push 1 p else Event.kill p] := by
  unfold bad drop_it
  split_ifs <;> rfl

/-- Every result of `simple_action` is the accepting one or the drop path. -/
theorem simple_action_cases (ck : List Byte → Nat) (e : CheckIPHeader) (p : Packet) (a : Action)
    (h : simple_action ck e p = some a) :
    a = { elt := e, events := [], ret := some (p.set_ip_header 0) } ∨ a = bad e p := by
  cases hr : a.ret with
  | none => exact Or.inr (simple_action_null ck e p a h hr)
  | some q =>
    left
    by_cases h1 : sizeof_click_ip ≤ p.data.length
    · rw [simple_action_long ck e p h1] at h
      split_ifs at h
      all_goals first
        | (have h' := Option.some.inj h; rw [← h', bad_ret] at hr; exact absurd hr (by simp))
        | skip
      split at h
      · exact absurd h (by simp)
      · have h' := Option.some.inj h
        rw [← h', bad_ret] at hr
        exact absurd hr (by simp)
      · exact (Option.some.inj h).symm
    · rw [simple_action_short ck e p (by simp only [Packet.length]; omega)] at h
      have h' := Option.some.inj h
      rw [← h', bad_ret] at hr
      exact absurd hr (by simp)

theorem simple_action_total (ck : List Byte → Nat) (e : CheckIPHeader) (p : Packet)
    (hc : e.configured) : ∃ a, simple_action ck e p = some a := by
  by_cases hg : guards ck e p.data
  · exact ⟨_, simple_action_accept ck e p hc hg⟩
  · exact ⟨_, simple_action_reject ck e p hc hg⟩

theorem configure_drops (cp : ConfParse) (conf : CStr) (e : CheckIPHeader) :
    (configure cp conf e).elt._drops = e._drops := by
  unfold configure errh_error
  simp only
  split_ifs
  · rfl
  · split <;> rfl

theorem configure_noutputs (cp : ConfParse) (conf : CStr) (e : CheckIPHeader) :
    (configure cp conf e).elt._noutputs = e._noutputs := by
  unfold configure errh_error
  simp only
  split_ifs
  · rfl
  · split <;> rfl

theorem configure_configured (cp : ConfParse) (conf : CStr) (e : CheckIPHeader)
    (hc : e.configured) : (configure cp conf e).elt.configured := by
  unfold configure errh_error
  simp only
  split_ifs
  · exact hc
  · split
    · exact hc
    · rename_i ips _
      unfold CheckIPHeader.configured
      simp only
      by_cases hn : ips.length = 0
      · simp [hn]
      · simp [hn]

theorem wrap_int_add (x y : Int) : wrap_int (wrap_int x + y) = wrap_int (x + y) := by
  unfold wrap_int
  omega

theorem wrap_int_of_int (x : Int) (h1 : -2147483648 ≤ x) (h2 : x ≤ 2147483647) :
    wrap_int x = x := by
  unfold wrap_int
  omega

theorem wrap_int_is_int (x : Int) : -2147483648 ≤ wrap_int x ∧ wrap_int x ≤ 2147483647 := by
  unfold wrap_int
  omega

/-- A run on a configured element whose counter is an `int`: it returns;
the counter is the initial one plus the number of rejections, wrapped; the
effects other than log lines are one per rejection; every log line is the
literal; and as long as the counter does not come back to 0 the log line
comes first, and only when the counter was 0 and a packet was rejected. -/
theorem run_spec (cp : ConfParse) (ck : List Byte → Nat) (calls : List Call) :
    ∀ e : CheckIPHeader, e.configured → e.drops_is_int →
      ∃ r, run cp ck e calls = some r ∧ r.elt.configured ∧ r.elt.drops_is_int ∧
        r.elt._drops = wrap_int (e._drops + r.rejected) ∧
        (non_log r.events).length = r.rejected ∧
        (∀ msg, Event.click_chatter msg ∈ r.events → msg = "IP checksum failed") ∧
        (e._drops % 4294967296 + r.rejected ≤ 4294967296 →
          r.events =
            (if e._drops = 0 ∧ r.rejected ≠ 0 then [Event.click_chatter "IP checksum failed"]
              else []) ++ non_log r.events) := by
  induction calls with
  | nil =>
    intro e hc hi
    refine ⟨_, rfl, hc, hi, ?_, by simp [non_log_nil], by simp, by simp [non_log_nil]⟩
    simp only [Int.Nat.cast_ofNat_Int, Int.add_zero]
    exact (wrap_int_of_int _ hi.1 hi.2).symm
  | cons c cs ih =>
    intro e hc hi
    cases c with
    | configure conf =>
      have hi' : (configure cp conf e).elt.drops_is_int := by
        unfold CheckIPHeader.drops_is_int
        rw [configure_drops]
        exact hi
      obtain ⟨r, hr, h1, h1', h2, h3, hm, h4⟩ := ih _ (configure_configured cp conf e hc) hi'
      rw [configure_drops] at h2 h4
      exact ⟨r, by rw [run, hr], h1, h1', h2, h3, hm, h4⟩
    | simple_action p =>
      obtain ⟨a, ha⟩ := simple_action_total ck e p hc
      rcases simple_action_cases ck e p a ha with hacc | hbad
      · obtain ⟨r, hr, h1, h1', h2, h3, hm, h4⟩ := ih e hc hi
        refine ⟨r, ?_, h1, h1', h2, h3, hm, h4⟩
        rw [run, ha, hacc]
        simp only
        rw [hr]
        simp
      · have hd : (bad e p).elt._drops = wrap_int (e._drops + 1) := by rw [bad_elt]
        have hc' : (bad e p).elt.configured := by
          rw [bad_elt]
          exact hc
        have hi' : (bad e p).elt.drops_is_int := by
          unfold CheckIPHeader.drops_is_int
          rw [hd]
          exact wrap_int_is_int _
        obtain ⟨r, hr, h1, h1', h2, h3, hm, h4⟩ := ih _ hc' hi'
        rw [hd] at h2 h4
        have h5 : non_log (bad e p).events ++ non_log r.events =
            (if e._noutputs = 2 then Event.push 1 p else Event.kill p) :: non_log r.events := by
          rw [bad_filter]
          split_ifs <;> rfl
        refine ⟨{ elt := r.elt, events := (bad e p).events ++ r.events,
                  rejected := 1 + r.rejected }, ?_, h1, h1', ?_, ?_, ?_, ?_⟩
        · rw [run, ha, hbad]
          simp only
          rw [hr]
          simp [bad_ret]
        · simp only
          rw [h2, wrap_int_add]
          congr 1
          omega
        · simp only [non_log_append]
          rw [h5, List.length_cons, h3]
          omega
        · intro msg hmem
          simp only at hmem
          rcases List.mem_append.mp hmem with hmem | hmem
          · rw [bad_events] at hmem
            by_cases h0 : e._drops = 0 <;> by_cases hn : e._noutputs = 2 <;>
              simp [h0, hn] at hmem
            · exact hmem
            · exact hmem
          · exact hm msg hmem
        · intro hbound
          simp only at hbound
          have hfalse : ¬ (wrap_int (e._drops + 1) = 0 ∧ r.rejected ≠ 0) := by
            unfold wrap_int
            omega
          have hb' : wrap_int (e._drops + 1) % 4294967296 + r.rejected ≤ 4294967296 := by
            unfold wrap_int
            omega
          have h4' : r.events = non_log r.events := by
            have := h4 hb'
            rw [if_neg hfalse] at this
            simpa using this
          simp only [non_log_append]
          rw [h5, bad_events, ← h4']
          by_cases h0 : e._drops = 0
          · simp [h0]
          · simp [h0]

/-- A run of `n` packets shorter than the fixed header rejects `n`
packets. -/
theorem run_short_rejected (cp : ConfParse) (ck : List Byte → Nat) (p : Packet)
    (hp : p.length < sizeof_click_ip) :
    ∀ (n : Nat) (e : CheckIPHeader) (r : Run),
      run cp ck e (List.replicate n (Call.simple_action p)) = some r → r.rejected = n := by
  intro n
  induction n with
  | zero =>
    intro e r h
    simp only [List.replicate_zero, run, Option.some.injEq] at h
    rw [← h]
  | succ n ih =>
    intro e r h
    rw [List.replicate_succ, run, simple_action_short ck e p hp] at h
    simp only at h
    cases hr : run cp ck (bad e p).elt (List.replicate n (Call.simple_action p)) with
    | none => simp [hr] at h
    | some r' =>
      have := ih _ r' hr
      simp only [hr, Option.some.injEq, bad_ret, Option.isNone_none, if_true] at h
      rw [← h]
      simp only
      omega

theorem run_append (cp : ConfParse) (ck : List Byte → Nat) (cs1 cs2 : List Call) :
    ∀ (e : CheckIPHeader) (r1 r2 : Run), run cp ck e cs1 = some r1 →
      run cp ck r1.elt cs2 = some r2 →
      run cp ck e (cs1 ++ cs2) =
        some { elt := r2.elt, events := r1.events ++ r2.events,
               rejected := r1.rejected + r2.rejected } := by
  induction cs1 with
  | nil =>
    intro e r1 r2 h1 h2
    simp only [run, Option.some.injEq] at h1
    subst h1
    simpa using h2
  | cons c cs ih =>
    intro e r1 r2 h1 h2
    cases c with
    | configure conf =>
      rw [List.cons_append, run]
      rw [run] at h1
      exact ih _ r1 r2 h1 h2
    | simple_action p =>
      rw [List.cons_append, run]
      rw [run] at h1
      cases ha : simple_action ck e p with
      | none => simp [ha] at h1
      | some a =>
        simp only [ha] at h1 ⊢
        cases hr : run cp ck a.elt cs with
        | none => simp [hr] at h1
        | some r =>
          simp only [hr, Option.some.injEq] at h1
          subst h1
          rw [ih a.elt r r2 hr h2]
          simp [Nat.add_assoc]

/-! ## Lemmas on `configure` -/

theorem configure_loop_nil (cp : ConfParse) (ips : List Nat) :
    configure_loop cp [] ips = LoopResult.done ips := by
  rw [configure_loop]
  simp

theorem configure_loop_fail (cp : ConfParse) (s : CStr) (ips : List Nat) (hs : s ≠ [])
    (h : cp.cp_ip_address s = none) :
    configure_loop cp s ips = LoopResult.expects_ipaddress := by
  rw [configure_loop, if_neg hs]
  split
  · rfl
  · rename_i a rest h'
    rw [h] at h'
    exact absurd h' (by simp)

theorem configure_loop_step (cp : ConfParse) (s : CStr) (ips : List Nat) (a : Nat) (rest : CStr)
    (hs : s ≠ []) (h : cp.cp_ip_address s = some (a, rest)) :
    configure_loop cp s ips =
      configure_loop cp (cp.cp_eat_space rest) (push_unless_repeat ips a) := by
  rw [configure_loop, if_neg hs]
  split
  · rename_i h'
    rw [h] at h'
    exact absurd h' (by simp)
  · rename_i a' rest' h'
    rw [h] at h'
    simp only [Option.some.injEq, Prod.mk.injEq] at h'
    rw [h'.1, h'.2]

theorem parsed_addrs_nil (cp : ConfParse) : parsed_addrs cp [] = some [] := by
  rw [parsed_addrs]
  simp

theorem parsed_addrs_fail (cp : ConfParse) (s : CStr) (hs : s ≠ [])
    (h : cp.cp_ip_address s = none) : parsed_addrs cp s = none := by
  rw [parsed_addrs, if_neg hs]
  split
  · rfl
  · rename_i a rest h'
    rw [h] at h'
    exact absurd h' (by simp)

theorem parsed_addrs_step (cp : ConfParse) (s : CStr) (a : Nat) (rest : CStr)
    (hs : s ≠ []) (h : cp.cp_ip_address s = some (a, rest)) :
    parsed_addrs cp s = (parsed_addrs cp (cp.cp_eat_space rest)).map (fun as => a :: as) := by
  rw [parsed_addrs, if_neg hs]
  split
  · rename_i h'
    rw [h] at h'
    exact absurd h' (by simp)
  · rename_i a' rest' h'
    rw [h] at h'
    simp only [Option.some.injEq, Prod.mk.injEq] at h'
    rw [h'.1, h'.2]

/-- The loop of `configure` is the fold of `push_unless_repeat` over the
parsed addresses, and fails exactly when some literal fails to parse. -/
theorem configure_loop_eq (cp : ConfParse) :
    ∀ (n : Nat) (s : CStr) (ips : List Nat), s.length ≤ n →
      configure_loop cp s ips =
        match parsed_addrs cp s with
        | none => LoopResult.expects_ipaddress
        | some as => LoopResult.done (as.foldl push_unless_repeat ips) := by
  intro n
  induction n with
  | zero =>
    intro s ips hn
    have hs : s = [] := List.length_eq_zero.mp (by omega)
    subst hs
    rw [configure_loop_nil, parsed_addrs_nil]
    rfl
  | succ n ih =>
    intro s ips hn
    by_cases hs : s = []
    · subst hs
      rw [configure_loop_nil, parsed_addrs_nil]
      rfl
    · cases h : cp.cp_ip_address s with
      | none => rw [configure_loop_fail cp s ips hs h, parsed_addrs_fail cp s hs h]
      | some ar =>
        obtain ⟨a, rest⟩ := ar
        have h1 := cp.ip_address_consumes s a rest h
        have h2 := cp.eat_space_le rest
        rw [configure_loop_step cp s ips a rest hs h, parsed_addrs_step cp s a rest hs h,
          ih _ _ (by omega)]
        cases parsed_addrs cp (cp.cp_eat_space rest) with
        | none => rfl
        | some as => rfl

theorem push_unless_repeat_mem (ips : List Nat) (a x : Nat) :
    x ∈ push_unless_repeat ips a ↔ x ∈ ips ∨ x = a := by
  unfold push_unless_repeat
  by_cases h : a ∈ ips
  · have : (ips.any fun y => y == a) = true := by simpa using h
    rw [if_pos this]
    constructor
    · exact Or.inl
    · rintro (h' | h')
      · exact h'
      · rw [h']
        exact h
  · have : ¬ (ips.any fun y => y == a) = true := by simpa using h
    rw [if_neg this]
    simp

theorem push_unless_repeat_of_mem (ips : List Nat) (a : Nat) (h : a ∈ ips) :
    push_unless_repeat ips a = ips := by
  unfold push_unless_repeat
  have : (ips.any fun y => y == a) = true := by simpa using h
  rw [if_pos this]

theorem foldl_push_mem (as : List Nat) :
    ∀ (ips : List Nat) (x : Nat),
      x ∈ as.foldl push_unless_repeat ips ↔ x ∈ ips ∨ x ∈ as := by
  induction as with
  | nil => intro ips x; simp
  | cons a as ih =>
    intro ips x
    rw [List.foldl_cons, ih, push_unless_repeat_mem]
    simp only [List.mem_cons]
    tauto

theorem foldl_push_length (as : List Nat) :
    ∀ ips : List Nat, ips.length ≤ (as.foldl push_unless_repeat ips).length := by
  induction as with
  | nil => intro ips; simp
  | cons a as ih =>
    intro ips
    rw [List.foldl_cons]
    refine Nat.le_trans ?_ (ih _)
    unfold push_unless_repeat
    split_ifs <;> simp

/-- `configure` in terms of the argument vector and the parsed addresses. -/
theorem configure_eq (cp : ConfParse) (conf : CStr) (e : CheckIPHeader) :
    configure cp conf e =
      match cp.cp_argvec conf with
      | [] => { ret := 0, errors := [],
                elt := { e with _n_bad_src := 2, _bad_src := [0, 0xffffffff] } }
      | [s] =>
        match parsed_addrs cp s with
        | none => errh_error "expects IPADDRESS" e
        | some as =>
          { ret := 0, errors := [],
            elt := { e with
              _n_bad_src := (as.foldl push_unless_repeat [0, 0xffffffff]).length,
              _bad_src := as.foldl push_unless_repeat [0, 0xffffffff] } }
      | _ :: _ :: _ =>
        errh_error "too many arguments to \x60CheckIPHeader([ADDRS])\x27" e := by
  unfold configure
  cases hargs : cp.cp_argvec conf with
  | nil => simp
  | cons s t =>
    cases t with
    | cons s2 t2 => simp
    | nil =>
      simp only [List.length_singleton, gt_iff_lt, Nat.lt_irrefl, if_false]
      rw [configure_loop_eq cp s.length s _ (Nat.le_refl _)]
      cases parsed_addrs cp s with
      | none => rfl
      | some as =>
        have hpos := foldl_push_length as [0, 0xffffffff]
        simp only [List.length_cons, List.length_nil] at hpos
        have hne : (as.foldl push_unless_repeat [0, 0xffffffff]).length ≠ 0 := by omega
        simp only [hne, ne_eq, not_false_eq_true, if_true]

theorem configure_no_args (cp : ConfParse) (conf : CStr) (e : CheckIPHeader)
    (h : cp.cp_argvec conf = []) :
    configure cp conf e =
      { ret := 0, errors := [],
        elt := { e with _n_bad_src := 2, _bad_src := [0, 0xffffffff] } } := by
  rw [configure_eq, h]

theorem configure_one_arg (cp : ConfParse) (conf s : CStr) (e : CheckIPHeader) (as : List Nat)
    (h : cp.cp_argvec conf = [s]) (hp : parsed_addrs cp s = some as) :
    configure cp conf e =
      { ret := 0, errors := [],
        elt := { e with
          _n_bad_src := (as.foldl push_unless_repeat [0, 0xffffffff]).length,
          _bad_src := as.foldl push_unless_repeat [0, 0xffffffff] } } := by
  rw [configure_eq, h]
  simp only [hp]

theorem configure_bad_literal (cp : ConfParse) (conf s : CStr) (e : CheckIPHeader)
    (h : cp.cp_argvec conf = [s]) (hp : parsed_addrs cp s = none) :
    configure cp conf e = errh_error "expects IPADDRESS" e := by
  rw [configure_eq, h]
  simp only [hp]

theorem configure_many_args (cp : ConfParse) (conf s s2 : CStr) (t : List CStr)
    (e : CheckIPHeader) (h : cp.cp_argvec conf = s :: s2 :: t) :
    configure cp conf e =
      errh_error "too many arguments to \x60CheckIPHeader([ADDRS])\x27" e := by
  rw [configure_eq, h]

/-- The four ways a `configure` call can go. -/
theorem configure_cases (cp : ConfParse) (conf : CStr) :
    (cp.cp_argvec conf = [] ∨
      ∃ s as, cp.cp_argvec conf = [s] ∧ parsed_addrs cp s = some as) ∨
    ((∃ s, cp.cp_argvec conf = [s] ∧ parsed_addrs cp s = none) ∨
      ∃ s s2 t, cp.cp_argvec conf = s :: s2 :: t) := by
  cases h : cp.cp_argvec conf with
  | nil => exact Or.inl (Or.inl rfl)
  | cons s t =>
    cases t with
    | cons s2 t2 => exact Or.inr (Or.inr ⟨s, s2, t2, rfl⟩)
    | nil =>
      cases hp : parsed_addrs cp s with
      | none => exact Or.inr (Or.inl ⟨s, rfl, hp⟩)
      | some as => exact Or.inl (Or.inr ⟨s, as, rfl, hp⟩)

theorem configure_ret_indep (cp : ConfParse) (conf : CStr) (e1 e2 : CheckIPHeader) :
    (configure cp conf e1).ret = (configure cp conf e2).ret := by
  rcases configure_cases cp conf with (h | ⟨s, as, h, hp⟩) | ⟨s, h, hp⟩ | ⟨s, s2, t, h⟩
  · rw [configure_no_args cp conf e1 h, configure_no_args cp conf e2 h]
  · rw [configure_one_arg cp conf s e1 as h hp, configure_one_arg cp conf s e2 as h hp]
  · rw [configure_bad_literal cp conf s e1 h hp, configure_bad_literal cp conf s e2 h hp]
    rfl
  · rw [configure_many_args cp conf s s2 t e1 h, configure_many_args cp conf s s2 t e2 h]
    rfl

theorem configure_failed (cp : ConfParse) (conf : CStr) (e : CheckIPHeader)
    (hf : (configure cp conf e).ret ≠ 0) : (configure cp conf e).elt = e := by
  rcases configure_cases cp conf with (h | ⟨s, as, h, hp⟩) | ⟨s, h, hp⟩ | ⟨s, s2, t, h⟩
  · rw [configure_no_args cp conf e h] at hf
    exact absurd rfl hf
  · rw [configure_one_arg cp conf s e as h hp] at hf
    exact absurd rfl hf
  · rw [configure_bad_literal cp conf s e h hp]
    rfl
  · rw [configure_many_args cp conf s s2 t e h]
    rfl

theorem configure_blocklist_indep (cp : ConfParse) (conf : CStr) (e1 e2 : CheckIPHeader)
    (h : (configure cp conf e1).ret = 0) :
    (configure cp conf e1).elt._bad_src = (configure cp conf e2).elt._bad_src ∧
      (configure cp conf e1).elt._n_bad_src = (configure cp conf e2).elt._n_bad_src := by
  rcases configure_cases cp conf with (h0 | ⟨s, as, h0, hp⟩) | ⟨s, h0, hp⟩ | ⟨s, s2, t, h0⟩
  · rw [configure_no_args cp conf e1 h0, configure_no_args cp conf e2 h0]
    exact ⟨rfl, rfl⟩
  · rw [configure_one_arg cp conf s e1 as h0 hp, configure_one_arg cp conf s e2 as h0 hp]
    exact ⟨rfl, rfl⟩
  · rw [configure_bad_literal cp conf s e1 h0 hp] at h
    exact absurd h (by simp [errh_error])
  · rw [configure_many_args cp conf s s2 t e1 h0] at h
    exact absurd h (by simp [errh_error])

theorem configure_twice (cp : ConfParse) (conf : CStr) (e : CheckIPHeader)
    (h : (configure cp conf e).ret = 0) :
    configure cp conf (configure cp conf e).elt = configure cp conf e := by
  rcases configure_cases cp conf with (h0 | ⟨s, as, h0, hp⟩) | ⟨s, h0, hp⟩ | ⟨s, s2, t, h0⟩
  · rw [configure_no_args cp conf _ h0, configure_no_args cp conf e h0]
  · rw [configure_one_arg cp conf s _ as h0 hp, configure_one_arg cp conf s e as h0 hp]
  · rw [configure_bad_literal cp conf s e h0 hp] at h
    exact absurd h (by simp [errh_error])
  · rw [configure_many_args cp conf s s2 t e h0] at h
    exact absurd h (by simp [errh_error])

/-- The value returned by `simple_action` depends on the element only
through its blocklist. -/
theorem simple_action_ret_congr (ck : List Byte → Nat) (e1 e2 : CheckIPHeader) (p : Packet)
    (hb : e1._bad_src = e2._bad_src) (hn : e1._n_bad_src = e2._n_bad_src) :
    (simple_action ck e1 p).map (fun a => a.ret) =
      (simple_action ck e2 p).map (fun a => a.ret) := by
  by_cases h1 : sizeof_click_ip ≤ p.data.length
  · rw [simple_action_long ck e1 p h1, simple_action_long ck e2 p h1, hb, hn]
    split_ifs
    any_goals rfl
    cases bad_src_scan e2._bad_src (ip_src p.data) 0 e2._n_bad_src with
    | none => rfl
    | some b => cases b <;> rfl
  · have hs : p.length < sizeof_click_ip := by
      simp only [Packet.length]
      omega
    rw [simple_action_short ck e1 p hs, simple_action_short ck e2 p hs]
    rfl

theorem foldl_push_skip (pre post ips : List Nat) (a : Nat) (h : a ∈ ips ∨ a ∈ pre) :
    (pre ++ a :: post).foldl push_unless_repeat ips =
      (pre ++ post).foldl push_unless_repeat ips := by
  rw [List.foldl_append, List.foldl_append, List.foldl_cons,
    push_unless_repeat_of_mem _ a ((foldl_push_mem pre ips a).mpr h)]

theorem parsed_addrs_one : parsed_addrs confparse "10.0.0.1".toList = some [0x0100000a] := by
  rw [parsed_addrs_step confparse _ 0x0100000a [] (by decide) (by decide)]
  have h : confparse.cp_eat_space [] = [] := rfl
  rw [h, parsed_addrs_nil]
  rfl

theorem parsed_addrs_single : parsed_addrs confparse "1.2.3.4".toList = some [0x04030201] := by
  rw [parsed_addrs_step confparse _ 0x04030201 [] (by decide) (by decide)]
  have h : confparse.cp_eat_space [] = [] := rfl
  rw [h, parsed_addrs_nil]
  rfl

theorem parsed_addrs_twice :
    parsed_addrs confparse "1.2.3.4 1.2.3.4".toList = some [0x04030201, 0x04030201] := by
  rw [parsed_addrs_step confparse _ 0x04030201 " 1.2.3.4".toList (by decide) (by decide)]
  have h : confparse.cp_eat_space " 1.2.3.4".toList = "1.2.3.4".toList := by decide
  rw [h, parsed_addrs_single]
  rfl

theorem parsed_addrs_bogus : parsed_addrs confparse "10.0.0.1 bogus".toList = none := by
  rw [parsed_addrs_step confparse _ 0x0100000a " bogus".toList (by decide) (by decide)]
  have h : confparse.cp_eat_space " bogus".toList = "bogus".toList := by decide
  rw [h, parsed_addrs_fail confparse _ (by decide) (by decide)]
  rfl

theorem configure_ok_configured (cp : ConfParse) (conf : CStr) (e : CheckIPHeader)
    (h : (configure cp conf e).ret = 0) : (configure cp conf e).elt.configured := by
  rcases configure_cases cp conf with (h0 | ⟨s, as, h0, hp⟩) | ⟨s, h0, hp⟩ | ⟨s, s2, t, h0⟩
  · rw [configure_no_args cp conf e h0]
    rfl
  · rw [configure_one_arg cp conf s e as h0 hp]
    rfl
  · rw [configure_bad_literal cp conf s e h0 hp] at h
    exact absurd h (by simp [errh_error])
  · rw [configure_many_args cp conf s s2 t e h0] at h
    exact absurd h (by simp [errh_error])

/-- The members of the blocklist after a successful `configure`: the two
defaults and the addresses parsed from the argument. -/
theorem configure_mem (cp : ConfParse) (conf : CStr) (e : CheckIPHeader) (x : Nat)
    (h : (configure cp conf e).ret = 0) :
    x ∈ (configure cp conf e).elt._bad_src ↔
      x = 0 ∨ x = 0xffffffff ∨
        ∃ s as, cp.cp_argvec conf = [s] ∧ parsed_addrs cp s = some as ∧ x ∈ as := by
  rcases configure_cases cp conf with (h0 | ⟨s, as, h0, hp⟩) | ⟨s, h0, hp⟩ | ⟨s, s2, t, h0⟩
  · rw [configure_no_args cp conf e h0]
    simp [h0]
  · rw [configure_one_arg cp conf s e as h0 hp]
    simp only [foldl_push_mem, List.mem_cons, List.mem_nil_iff, or_false]
    constructor
    · rintro ((hx | hx) | hx)
      · exact Or.inl hx
      · exact Or.inr (Or.inl hx)
      · exact Or.inr (Or.inr ⟨s, as, h0, hp, hx⟩)
    · rintro (hx | hx | ⟨s', as', hs', hp', hx⟩)
      · exact Or.inl (Or.inl hx)
      · exact Or.inl (Or.inr hx)
      · rw [h0] at hs'
        have hs : s = s' := by simpa using hs'
        subst hs
        rw [hp] at hp'
        have : as = as' := by simpa using hp'
        subst this
        exact Or.inr hx
  · rw [configure_bad_literal cp conf s e h0 hp] at h
    exact absurd h (by simp [errh_error])
  · rw [configure_many_args cp conf s s2 t e h0] at h
    exact absurd h (by simp [errh_error])

theorem simple_action_blocked (ck : List Byte → Nat) (e : CheckIPHeader) (p : Packet)
    (hc : e.configured) (hs : ip_src p.data ∈ e._bad_src) :
    simple_action ck e p = some (bad e p) :=
  simple_action_reject ck e p hc (fun hg => hg.2 hs)

theorem configure_scenario_b (junk : Nat) :
    configure confparse "10.0.0.1".toList (CheckIPHeader.ctor junk) =
      { ret := 0, errors := [], elt := scenario_b } := by
  rw [configure_one_arg confparse _ "10.0.0.1".toList _ _ (by decide) parsed_addrs_one]
  rfl

/-! ## Lemmas on the checksum and on single-bit changes -/

theorem sum16_le (d : List Byte) : sum16 d ≤ 65535 * d.length := by
  induction d using sum16.induct with
  | case1 => simp [sum16]
  | case2 b =>
    have := b.isLt
    simp only [sum16, List.length_singleton]
    omega
  | case3 b0 b1 rest ih =>
    have := b0.isLt
    have := b1.isLt
    simp only [sum16, List.length_cons]
    omega

theorem byte_weight_add_two (i : Nat) : byte_weight (i + 2) = byte_weight i := by
  unfold byte_weight
  have : (i + 2) % 2 = i % 2 := by omega
  rw [this]

theorem sum16_set (d : List Byte) : ∀ (i : Nat) (b : Byte) (h : i < d.length),
    sum16 (d.set i b) + byte_weight i * (d[i]).val = sum16 d + byte_weight i * b.val := by
  induction d using sum16.induct with
  | case1 => intro i b h; simp at h
  | case2 x =>
    intro i b h
    have hi : i = 0 := by simpa using h
    subst hi
    have w0 : byte_weight 0 = 256 := rfl
    simp only [List.set_cons_zero, sum16, w0, List.getElem_cons_zero]
    omega
  | case3 x y rest ih =>
    intro i b h
    have w0 : byte_weight 0 = 256 := rfl
    have w1 : byte_weight 1 = 1 := rfl
    match i, h with
    | 0, _ =>
      simp only [List.set_cons_zero, sum16, w0, List.getElem_cons_zero]
      omega
    | 1, _ =>
      simp only [List.set_cons_succ, List.set_cons_zero, sum16, w1,
        List.getElem_cons_succ, List.getElem_cons_zero]
      omega
    | j + 2, h =>
      have hj : j < rest.length := by simpa using h
      have := ih j b hj
      simp only [List.set_cons_succ, sum16, byte_weight_add_two, List.getElem_cons_succ]
      omega

theorem in_cksum_zero_iff (d : List Byte) (h : sum16 d < 4294967296) :
    in_cksum d = 0 ↔ 0 < sum16 d ∧ sum16 d % 65535 = 0 := by
  unfold in_cksum
  simp only
  rw [Nat.mod_eq_of_lt h]
  have hs : sum16 d % 65535 = (sum16 d % 65536 + sum16 d / 65536) % 65535 := by
    have h1 : sum16 d = (sum16 d % 65536 + sum16 d / 65536) + 65535 * (sum16 d / 65536) := by
      omega
    rw [h1, Nat.add_mul_mod_self_left]
    congr 1
    omega
  have hb : sum16 d % 65536 + sum16 d / 65536 ≤ 131070 := by omega
  have hz : sum16 d = 0 ↔ sum16 d % 65536 + sum16 d / 65536 = 0 := by omega
  rw [hs, Nat.pos_iff_ne_zero, Ne, hz]
  generalize sum16 d % 65536 + sum16 d / 65536 = s1 at hb ⊢
  by_cases h1 : s1 < 65536
  · have hd : s1 / 65536 = 0 := Nat.div_eq_of_lt h1
    rw [hd, Nat.add_zero, Nat.mod_eq_of_lt h1]
    by_cases h2 : s1 < 65535
    · rw [Nat.mod_eq_of_lt h2]
      omega
    · have : s1 = 65535 := by omega
      subst this
      decide
  · have hd : s1 / 65536 = 1 := by omega
    rw [hd]
    by_cases h2 : s1 = 131070
    · subst h2
      decide
    · have h3 : (s1 + 1) % 65536 = s1 + 1 - 65536 := by omega
      have h4 : s1 % 65535 = s1 - 65535 := by omega
      rw [h3, h4]
      omega

set_option maxRecDepth 100000 in
theorem flip_val : ∀ (b : Fin 256) (k : Fin 8),
    (Byte.flip b k.val).val = b.val + 2 ^ k.val ∨ (Byte.flip b k.val).val + 2 ^ k.val = b.val := by
  decide

set_option maxRecDepth 100000 in
theorem flip_version : ∀ (b : Fin 256) (k : Fin 8), 4 ≤ k.val → b.val / 16 = 4 →
    (Byte.flip b k.val).val / 16 ≠ 4 := by
  decide

theorem byte_at_set_ne (d : List Byte) (i j : Nat) (x : Byte) (h : i ≠ j) :
    byte_at (d.set i x) j = byte_at d j := by
  simp [byte_at, List.getElem?_set_ne h]

theorem byte_at_set_self (d : List Byte) (i : Nat) (x : Byte) (h : i < d.length) :
    byte_at (d.set i x) i = x.val := by
  simp [byte_at, List.getElem?_set_self h]

theorem simple_action_reject_early (ck : List Byte → Nat) (e : CheckIPHeader) (p : Packet)
    (hg : ¬ guards_1_6 ck p.data) : simple_action ck e p = some (bad e p) := by
  by_cases h1 : sizeof_click_ip ≤ p.data.length
  · rw [simple_action_long ck e p h1]
    split_ifs with g2 g3 g4 g5 g6
    any_goals rfl
    exfalso
    apply hg
    refine ⟨h1, ?_, ?_, ?_, ?_, ?_⟩
    · simpa using g2
    · omega
    · omega
    · simpa using g5
    · omega
  · exact simple_action_short ck e p (by simp only [Packet.length]; omega)

theorem simple_action_accepted_guards (ck : List Byte → Nat) (e : CheckIPHeader) (p : Packet)
    (a : Action) (h : simple_action ck e p = some a) (hr : a.ret ≠ none) :
    guards_1_6 ck p.data := by
  by_contra hg
  rw [simple_action_reject_early ck e p hg] at h
  have := Option.some.inj h
  rw [← this] at hr
  exact hr rfl

/-- A single-bit change of a byte inside the summed range makes a zero
checksum non-zero. -/
theorem in_cksum_flip (d : List Byte) (i k : Nat) (hi : i < d.length) (hk : k < 8)
    (hlen : d.length ≤ 60) (h0 : in_cksum d = 0) :
    in_cksum (d.set i (Byte.flip d[i] k)) ≠ 0 := by
  have hb := sum16_le d
  have hb' := sum16_le (d.set i (Byte.flip d[i] k))
  rw [List.length_set] at hb'
  have hS := (in_cksum_zero_iff d (by omega)).mp h0
  intro h0'
  have hS' := (in_cksum_zero_iff _ (by omega)).mp h0'
  have hset := sum16_set d i (Byte.flip d[i] k) hi
  have hpow : 2 ^ k ≤ 128 := by
    have : 2 ^ k ≤ 2 ^ 7 := Nat.pow_le_pow_right (by decide) (by omega)
    simpa using this
  have hpos : 0 < 2 ^ k := Nat.two_pow_pos k
  have hw : byte_weight i = 256 ∨ byte_weight i = 1 := by
    unfold byte_weight
    split_ifs
    · exact Or.inl rfl
    · exact Or.inr rfl
  have hf := flip_val d[i] ⟨k, hk⟩
  simp only at hf
  generalize 2 ^ k = t at hf hpow hpos
  generalize (Byte.flip d[i] k).val = b' at hf hset
  generalize (d[i]).val = b at hf hset
  generalize sum16 (d.set i (Byte.flip d[i] k)) = S' at hset hS' hb'
  generalize sum16 d = S at hset hS hb
  rcases hw with hw | hw <;> rcases hf with hf | hf <;> rw [hw] at hset <;> omega

/-! ## Lemmas on the shape of the blocklist and the order of the guards -/

theorem mem_first_occurrences (as : List Nat) (x : Nat) :
    x ∈ first_occurrences as ↔ x ∈ as := by
  induction as with
  | nil => simp [first_occurrences]
  | cons a as ih =>
    simp only [first_occurrences, List.mem_cons, List.mem_filter, ih, bne_iff_ne, ne_eq]
    by_cases hx : x = a
    · simp [hx]
    · simp [hx]

theorem first_occurrences_nodup (as : List Nat) : (first_occurrences as).Nodup := by
  induction as with
  | nil => simp [first_occurrences]
  | cons a as ih =>
    simp only [first_occurrences, List.nodup_cons, List.mem_filter, bne_iff_ne, ne_eq,
      not_true_eq_false, and_false, not_false_eq_true, true_and]
    exact ih.filter _

/-- The fold of `push_unless_repeat` appends to `ips` the first occurrences
of the addresses that are not in `ips`. -/
theorem foldl_push_eq (as : List Nat) :
    ∀ ips : List Nat,
      as.foldl push_unless_repeat ips =
        ips ++ (first_occurrences as).filter (fun x => decide (x ∉ ips)) := by
  induction as with
  | nil => intro ips; simp [first_occurrences]
  | cons a as ih =>
    intro ips
    rw [List.foldl_cons, ih]
    by_cases ha : a ∈ ips
    · rw [push_unless_repeat_of_mem ips a ha]
      simp only [first_occurrences, List.filter_cons, ha, not_true_eq_false, decide_False,
        Bool.false_eq_true, if_false, List.filter_filter]
      congr 1
      apply List.filter_congr
      intro x _
      by_cases hx : x ∈ ips
      · simp [hx]
      · have : x ≠ a := fun h => hx (h ▸ ha)
        simp [hx, this]
    · have hp : push_unless_repeat ips a = ips ++ [a] := by
        unfold push_unless_repeat
        have : ¬ (ips.any fun y => y == a) = true := by simpa using ha
        rw [if_neg this]
      rw [hp]
      simp only [first_occurrences, List.filter_cons, ha, not_false_eq_true, decide_True,
        if_true, List.filter_filter, List.append_assoc, List.singleton_append]
      congr 2
      apply List.filter_congr
      intro x _
      by_cases hx : x ∈ ips
      · simp [hx]
      · by_cases hxa : x = a
        · simp [hxa]
        · simp [hx, hxa]


theorem simple_action_reject_structural (ck : List Byte → Nat) (e : CheckIPHeader) (p : Packet)
    (hg : ¬ guards_1_4 p.data) : simple_action ck e p = some (bad e p) := by
  by_cases h1 : sizeof_click_ip ≤ p.data.length
  · rw [simple_action_long ck e p h1]
    split_ifs with g2 g3 g4 g5 g6
    any_goals rfl
    all_goals
      exfalso
      apply hg
      refine ⟨h1, ?_, ?_, ?_⟩
      · simpa using g2
      · omega
      · omega
  · exact simple_action_short ck e p (by simp only [Packet.length]; omega)

theorem bad_src_scan_none (bs : List Nat) (src : Nat) :
    ∀ (k i : Nat), bad_src_scan bs src i k = none → bs.length < i + k := by
  intro k
  induction k with
  | zero => intro i h; simp [bad_src_scan] at h
  | succ k ih =>
    intro i h
    rw [bad_src_scan] at h
    split at h
    · rename_i hn
      have := List.getElem?_eq_none_iff.mp hn
      omega
    · split_ifs at h
      have := ih (i + 1) h
      omega

theorem bad_with_blocklist (e : CheckIPHeader) (bs : List Nat) (n : Nat) (p : Packet) :
    (bad (with_blocklist e bs n) p).ret = none ∧
      (bad (with_blocklist e bs n) p).events = (bad e p).events ∧
      (bad (with_blocklist e bs n) p).elt = with_blocklist (bad e p).elt bs n := by
  refine ⟨rfl, ?_, ?_⟩
  · rw [bad_events, bad_events]
    rfl
  · rw [bad_elt, bad_elt]
    rfl

theorem rd8_none_iff (d : List Byte) (i : Nat) : rd8 d i = none ↔ d.length ≤ i := by
  simp [rd8]

theorem rdn_none_iff (d : List Byte) (n : Nat) : rdn d n = none ↔ d.length < n := by
  unfold rdn
  split_ifs with h
  · simp
    omega
  · simp
    omega

/-! ## Lemmas on `Print` -/

theorem take_set_of_le (l : List Char) (n m : Nat) (c : Char) (h : m ≤ n) :
    (l.set n c).take m = l.take m := by
  rw [List.set_take]
  exact List.set_eq_of_length_le (by rw [List.length_take]; omega)

/-- A write inside the buffer: the capacity is kept, the characters before
the index are kept, and the character is at the index. -/
theorem wr_spec (buf : List Char) (i : Nat) (c : Char) (h : i < buf.length) :
    ∃ b, wr buf i c = some b ∧ b.length = buf.length ∧
      b.take (i + 1) = buf.take i ++ [c] ∧ ∀ m, m ≤ i → b.take m = buf.take m := by
  refine ⟨buf.set i c, by simp [wr, h], List.length_set _ _ _, ?_, ?_⟩
  · rw [List.take_succ, take_set_of_le buf i i c (Nat.le_refl i),
      List.getElem?_set_self h]
    rfl
  · intro m hm
    exact take_set_of_le buf i m c hm

theorem sprintf_02x_spec (buf : List Char) (pos v : Nat) (h : pos + 2 < buf.length) :
    ∃ b, sprintf_02x buf pos v = some b ∧ b.length = buf.length ∧
      b.take (pos + 2) = buf.take pos ++ [hex_digit (v / 16), hex_digit (v % 16)] := by
  obtain ⟨b1, h1, l1, t1, _⟩ := wr_spec buf pos (hex_digit (v / 16)) (by omega)
  obtain ⟨b2, h2, l2, t2, _⟩ := wr_spec b1 (pos + 1) (hex_digit (v % 16)) (by omega)
  obtain ⟨b3, h3, l3, _, k3⟩ := wr_spec b2 (pos + 2) nul (by omega)
  refine ⟨b3, ?_, by omega, ?_⟩
  · unfold sprintf_02x
    rw [h1]
    simp only
    rw [h2]
    simp only
    exact h3
  · rw [k3 (pos + 2) (Nat.le_refl _), t2, t1]
    simp

/-- The loop with room for three characters per iteration and one more:
it returns, keeps the capacity, and appends the preview of the bytes it
visits to what the buffer holds before `pos`. -/
theorem print_loop_spec (d : List Byte) :
    ∀ (k i pos : Nat) (buf : List Char), i + k ≤ d.length → pos + 3 * k + 1 ≤ buf.length →
      ∃ b, print_loop d k i pos buf =
          some (pos + (rendered_from i ((d.drop i).take k)).length, b) ∧
        b.length = buf.length ∧
        b.take (pos + (rendered_from i ((d.drop i).take k)).length) =
          buf.take pos ++ rendered_from i ((d.drop i).take k) := by
  intro k
  induction k with
  | zero =>
    intro i pos buf _ _
    exact ⟨buf, by simp [print_loop, rendered_from], rfl, by simp [rendered_from]⟩
  | succ k ih =>
    intro i pos buf hi hroom
    have hlt : i < d.length := by omega
    have hdrop : d.drop i = d[i] :: d.drop (i + 1) := List.drop_eq_getElem_cons hlt
    have hmod : (d[i]).val % 256 = (d[i]).val := Nat.mod_eq_of_lt (d[i]).isLt
    obtain ⟨b1, h1, l1, t1⟩ := sprintf_02x_spec buf pos (d[i]).val (by omega)
    rw [print_loop, List.getElem?_eq_getElem hlt]
    simp only [hmod, h1]
    by_cases h4 : i % 4 = 3
    · obtain ⟨b2, h2, l2, t2, _⟩ := wr_spec b1 (pos + 2) ' ' (by omega)
      obtain ⟨b, hb, lb, tb⟩ := ih (i + 1) (pos + 3) b2 (by omega) (by omega)
      have hP : rendered_from i ((d.drop i).take (k + 1)) =
          hex_digit ((d[i]).val / 16) :: hex_digit ((d[i]).val % 16) :: ' ' ::
            rendered_from (i + 1) ((d.drop (i + 1)).take k) := by
        rw [hdrop, List.take_succ_cons, rendered_from]
        simp [h4]
      have e : pos + (hex_digit ((d[i]).val / 16) :: hex_digit ((d[i]).val % 16) :: ' ' ::
            rendered_from (i + 1) ((d.drop (i + 1)).take k)).length =
          pos + 3 + (rendered_from (i + 1) ((d.drop (i + 1)).take k)).length := by
        simp only [List.length_cons]
        omega
      rw [hP, e]
      refine ⟨b, ?_, by omega, ?_⟩
      · simp only [h4, if_true, h2, hb]
      · rw [tb, t2, t1]
        simp
    · obtain ⟨b, hb, lb, tb⟩ := ih (i + 1) (pos + 2) b1 (by omega) (by omega)
      have hP : rendered_from i ((d.drop i).take (k + 1)) =
          hex_digit ((d[i]).val / 16) :: hex_digit ((d[i]).val % 16) ::
            rendered_from (i + 1) ((d.drop (i + 1)).take k) := by
        rw [hdrop, List.take_succ_cons, rendered_from]
        simp [h4]
      have e : pos + (hex_digit ((d[i]).val / 16) :: hex_digit ((d[i]).val % 16) ::
            rendered_from (i + 1) ((d.drop (i + 1)).take k)).length =
          pos + 2 + (rendered_from (i + 1) ((d.drop (i + 1)).take k)).length := by
        simp only [List.length_cons]
        omega
      rw [hP, e]
      refine ⟨b, ?_, by omega, ?_⟩
      · simp only [h4, if_false, hb]
      · rw [tb, t1]
        simp


theorem rendered_from_length (l : List Byte) :
    ∀ i : Nat, (rendered_from i l).length = 2 * l.length + ((i + l.length) / 4 - i / 4) := by
  induction l with
  | nil => intro i; simp [rendered_from]
  | cons b bs ih =>
    intro i
    simp only [rendered_from, List.length_cons, List.length_append, ih (i + 1)]
    by_cases h4 : i % 4 = 3
    · simp only [h4, if_true, List.length_singleton]
      omega
    · simp only [h4, if_false, List.length_nil]
      omega

theorem rendered_length (l : List Byte) :
    (rendered_from 0 l).length = 2 * l.length + l.length / 4 := by
  rw [rendered_from_length]
  simp

theorem hex_digit_ne_nul : ∀ n : Fin 16, hex_digit n.val ≠ nul := by
  decide

theorem rendered_from_ne_nul (l : List Byte) :
    ∀ (i : Nat) (c : Char), c ∈ rendered_from i l → c ≠ nul := by
  induction l with
  | nil => intro i c hc; simp [rendered_from] at hc
  | cons b bs ih =>
    intro i c hc
    have hb := b.isLt
    simp only [rendered_from, List.mem_cons, List.mem_append] at hc
    rcases hc with hc | hc | hc | hc
    · rw [hc]
      exact hex_digit_ne_nul ⟨b.val / 16, by omega⟩
    · rw [hc]
      exact hex_digit_ne_nul ⟨b.val % 16, by omega⟩
    · split_ifs at hc
      · simp only [List.mem_singleton] at hc
        rw [hc]
        decide
      · simp at hc
    · exact ih (i + 1) c hc

theorem c_string_of_take (buf xs : List Char) (m : Nat) (h : buf.take (m + 1) = xs ++ [nul])
    (hx : ∀ c ∈ xs, c ≠ nul) : c_string buf = xs := by
  have hb : buf = xs ++ nul :: buf.drop (m + 1) := by
    have := List.take_append_drop (m + 1) buf
    rw [h] at this
    simpa using this.symm
  unfold c_string
  rw [hb, List.takeWhile_append_of_pos (fun c hc => by simpa using hx c hc)]
  simp

/-- `Print::simple_action` on an element whose buffer has `3 * M + 1`
characters for its maximum `M`: it returns the packet, and the buffer then
begins with the preview of the first `min L M` bytes and a NUL. -/
theorem print_simple_action_spec (e : Print) (p : Packet) (buf : List Char) (M : Nat)
    (hb : e._buf = some buf) (hM : e._bytes = (M : Int)) (hint : M < 4294967296)
    (hcap : buf.length = 3 * M + 1) :
    ∃ b1 b2,
      print_loop p.data (min p.length M) 0 0 buf =
        some ((rendered_from 0 (p.data.take (min p.length M))).length, b1) ∧
      Print.simple_action e p =
        some { elt := { e with _buf := some b2 },
               line := { label := e._label, length := p.length,
                         preview := rendered_from 0 (p.data.take (min p.length M)) },
               ret := p } ∧
      b2.length = buf.length ∧
      b2.take ((rendered_from 0 (p.data.take (min p.length M))).length + 1) =
        rendered_from 0 (p.data.take (min p.length M)) ++ [nul] ∧
      (rendered_from 0 (p.data.take (min p.length M))).length < buf.length := by
  have hn : min (e._bytes % 4294967296).toNat p.length = min p.length M := by
    rw [hM]
    have : ((M : Int) % 4294967296).toNat = M := by omega
    rw [this, Nat.min_comm]
  have hnl : min p.length M ≤ p.data.length := by
    simp only [Packet.length]
    exact Nat.min_le_left _ _
  have hnM : min p.length M ≤ M := Nat.min_le_right _ _
  obtain ⟨b1, h1, l1, t1⟩ := print_loop_spec p.data (min p.length M) 0 0 buf (by omega) (by omega)
  simp only [List.drop_zero, Nat.zero_add, List.take_zero, List.nil_append] at h1 t1
  have hlen := rendered_length (p.data.take (min p.length M))
  rw [List.length_take, Nat.min_eq_left hnl] at hlen
  have hpos : (rendered_from 0 (p.data.take (min p.length M))).length < b1.length := by
    rw [hlen, l1, hcap]
    omega
  obtain ⟨b2, h2, l2, t2, _⟩ := wr_spec b1 _ nul hpos
  have t2' : b2.take ((rendered_from 0 (p.data.take (min p.length M))).length + 1) =
      rendered_from 0 (p.data.take (min p.length M)) ++ [nul] := by
    rw [t2]
    exact congrArg (fun x => x ++ [nul]) t1
  have hcs : c_string b2 = rendered_from 0 (p.data.take (min p.length M)) :=
    c_string_of_take b2 _ _ t2' (rendered_from_ne_nul _ 0)
  refine ⟨b1, b2, h1, ?_, by omega, t2', by omega⟩
  unfold Print.simple_action
  rw [hb]
  simp only [hn]
  have h1' : print_loop p.data (min p.length M) 0 0 buf =
      some ((rendered_from 0 (p.data.take (min p.length M))).length, b1) := h1
  rw [h1']
  simp only [h2, hcs]

set_option maxRecDepth 100000 in
theorem sprintf_digits_eq : ∀ b : Fin 256,
    [hex_digit (b.val / 16), hex_digit (b.val % 16)] = two_hex_digits b := by
  decide

/-- What the loop writes is the preview of the specification. -/
theorem rendered_from_eq (l : List Byte) :
    ∀ i : Nat, rendered_from i l = hex_preview_from i l := by
  induction l with
  | nil => intro i; rfl
  | cons b bs ih =>
    intro i
    rw [rendered_from, hex_preview_from, ih (i + 1), ← sprintf_digits_eq b]
    simp

theorem rendered_eq (l : List Byte) : rendered_from 0 l = hex_preview l :=
  rendered_from_eq l 0

theorem hex_preview_length (l : List Byte) :
    (hex_preview l).length = 2 * l.length + l.length / 4 := by
  rw [← rendered_eq]
  exact rendered_length l

theorem hex_preview_ne_nul (l : List Byte) (c : Char) (h : c ∈ hex_preview l) : c ≠ nul := by
  rw [← rendered_eq] at h
  exact rendered_from_ne_nul l 0 c h

/-- The lemma `print_simple_action_spec` with the preview of the
specification in place of what the loop writes. -/
theorem print_simple_action_preview (e : Print) (p : Packet) (buf : List Char) (M : Nat)
    (hb : e._buf = some buf) (hM : e._bytes = (M : Int)) (hint : M < 4294967296)
    (hcap : buf.length = 3 * M + 1) :
    ∃ b1 b2,
      print_loop p.data (min p.length M) 0 0 buf =
        some ((hex_preview (p.data.take (min p.length M))).length, b1) ∧
      Print.simple_action e p =
        some { elt := { e with _buf := some b2 },
               line := { label := e._label, length := p.length,
                         preview := hex_preview (p.data.take (min p.length M)) },
               ret := p } ∧
      b2.length = buf.length ∧
      b2.take ((hex_preview (p.data.take (min p.length M))).length + 1) =
        hex_preview (p.data.take (min p.length M)) ++ [nul] ∧
      (hex_preview (p.data.take (min p.length M))).length < buf.length := by
  have h := print_simple_action_spec e p buf M hb hM hint hcap
  rw [rendered_eq] at h
  exact h

theorem print_configure_ok (env : PrintEnv) (conf : CStr) (e : Print)
    (h : (Print.configure env conf e).ret = 0) :
    ∃ buf, (Print.configure env conf e).elt._buf = some buf ∧
      (buf.length : Int) = wrap_int (3 * (Print.configure env conf e).elt._bytes + 1) := by
  unfold Print.configure at h ⊢
  simp only at h ⊢
  split_ifs at h ⊢ with hneg
  · exact absurd h (by simp)
  · split at h
    · rename_i buf hbuf
      simp only [hbuf]
      exact ⟨buf, rfl, env.new_char_length _ _ hbuf⟩
    · exact absurd h (by simp)


theorem wr_none_iff (buf : List Char) (i : Nat) (c : Char) :
    wr buf i c = none ↔ buf.length ≤ i := by
  unfold wr
  split_ifs with h
  · simp
    omega
  · simp
    omega

/-! ## The claims -/

/-- C1: on a configured element, `simple_action` returns on every packet;
it returns the packet (forward to output 0) if and only if all seven guards
hold, and otherwise it is exactly the drop path `bad` with a null return.
Each packet has exactly one outcome among forward to output 0, forward to
output 1 and destroy. -/
theorem simple_action_forwards_iff_guards (ck : List Byte → Nat) (e : CheckIPHeader)
    (p : Packet) (hc : e.configured) :
    ∃ a, simple_action ck e p = some a ∧
      (a.ret = some (p.set_ip_header 0) ↔ guards ck e p.data) ∧
      (a.ret ≠ none ↔ guards ck e p.data) ∧
      (¬ guards ck e p.data → a = bad e p ∧ a.ret = none) ∧
      ((a.forward_0 p ∧ ¬ a.forward_1 p ∧ ¬ a.destroy p) ∨
        (¬ a.forward_0 p ∧ a.forward_1 p ∧ ¬ a.destroy p) ∨
        (¬ a.forward_0 p ∧ ¬ a.forward_1 p ∧ a.destroy p)) := by
  by_cases hg : guards ck e p.data
  · refine ⟨_, simple_action_accept ck e p hc hg, ?_, ?_, ?_, ?_⟩
    · simp [hg]
    · simp [hg]
    · exact fun h => absurd hg h
    · left
      simp [Action.forward_0, Action.forward_1, Action.destroy]
  · refine ⟨_, simple_action_reject ck e p hc hg, ?_, ?_, ?_, ?_⟩
    · simp [hg, bad_ret]
    · simp [hg, bad_ret]
    · exact fun _ => ⟨rfl, rfl⟩
    · right
      by_cases h2 : e._noutputs = 2
      · left
        simp [Action.forward_0, Action.forward_1, Action.destroy, bad_ret, bad_filter, h2]
      · right
        simp [Action.forward_0, Action.forward_1, Action.destroy, bad_ret, bad_filter, h2]

/-- The witness of C1: scenario A, the well-formed packet on the element
configured with no argument. -/
theorem simple_action_forwards_iff_guards_witness :
    ∃ a, simple_action in_cksum scenario_a scenario_packet = some a ∧
      (a.ret = some (scenario_packet.set_ip_header 0) ↔
        guards in_cksum scenario_a scenario_packet.data) ∧
      (a.ret ≠ none ↔ guards in_cksum scenario_a scenario_packet.data) ∧
      (¬ guards in_cksum scenario_a scenario_packet.data →
        a = bad scenario_a scenario_packet ∧ a.ret = none) ∧
      ((a.forward_0 scenario_packet ∧ ¬ a.forward_1 scenario_packet ∧
          ¬ a.destroy scenario_packet) ∨
        (¬ a.forward_0 scenario_packet ∧ a.forward_1 scenario_packet ∧
          ¬ a.destroy scenario_packet) ∨
        (¬ a.forward_0 scenario_packet ∧ ¬ a.forward_1 scenario_packet ∧
          a.destroy scenario_packet)) :=
  simple_action_forwards_iff_guards in_cksum scenario_a scenario_packet (by decide)

/-- C2 (amended): for every packet that `simple_action` accepts and every
bit of its header other than the four bits of the header-length field (the
low nibble of byte 0), the packet with that single bit inverted and all other
bytes unchanged is dropped: `simple_action` takes the drop path, returns null
and the guards fail. -/
theorem header_bit_flip_dropped (e : CheckIPHeader) (p : Packet) (a : Action) (i k : Nat)
    (h : simple_action in_cksum e p = some a) (hr : a.ret ≠ none)
    (hi : i < ip_hlen p.data) (hk : k < 8) (hfield : ¬ (i = 0 ∧ k < 4)) :
    simple_action in_cksum e (p.flip i k) = some (bad e (p.flip i k)) ∧
      (bad e (p.flip i k)).ret = none ∧ ¬ guards in_cksum e (p.flip i k).data := by
  obtain ⟨g1, g2, g3, g4, g5, g6⟩ := simple_action_accepted_guards in_cksum e p a h hr
  have hil : i < p.data.length := by omega
  have hgetD : p.data.getD i 0 = p.data[i] := List.getD_eq_getElem _ _ hil
  have hng : ¬ guards_1_6 in_cksum (p.flip i k).data := by
    rintro ⟨_, f2, _, _, f5, _⟩
    simp only [Packet.flip, flip_bit, hgetD] at f2 f5
    by_cases h0 : i = 0
    · subst h0
      have hk4 : 4 ≤ k := by
        by_contra hlt
        exact hfield ⟨rfl, by omega⟩
      have hv := flip_version p.data[0] ⟨k, hk⟩ hk4
        (by
          have := g2
          simp only [ip_v, byte_at, hgetD] at this
          exact this)
      apply hv
      simp only [ip_v, byte_at_set_self _ _ _ hil] at f2
      exact f2
    · have hb0 : byte_at (p.data.set i (Byte.flip p.data[i] k)) 0 = byte_at p.data 0 :=
        byte_at_set_ne _ _ _ _ h0
      have hh : ip_hlen (p.data.set i (Byte.flip p.data[i] k)) = ip_hlen p.data := by
        simp only [ip_hlen, ip_hl, hb0]
      rw [hh, List.set_take] at f5
      have hn60 : ip_hlen p.data ≤ 60 := by
        simp only [ip_hlen, ip_hl]
        omega
      have hlt : (p.data.take (ip_hlen p.data)).length = ip_hlen p.data := by
        rw [List.length_take]
        omega
      have hit : i < (p.data.take (ip_hlen p.data)).length := by omega
      have hget : (p.data.take (ip_hlen p.data))[i] = p.data[i] := by
        simp
      have := in_cksum_flip (p.data.take (ip_hlen p.data)) i k hit hk (by omega) g5
      rw [hget] at this
      exact this f5
  exact ⟨simple_action_reject_early in_cksum e _ hng, rfl, fun hg => hng hg.1⟩

/-- The witness of C2: bit 3 of a checksum byte of the well-formed packet. -/
theorem header_bit_flip_dropped_witness :
    simple_action in_cksum scenario_a (scenario_packet.flip 10 3) =
        some (bad scenario_a (scenario_packet.flip 10 3)) ∧
      (bad scenario_a (scenario_packet.flip 10 3)).ret = none ∧
      ¬ guards in_cksum scenario_a (scenario_packet.flip 10 3).data :=
  header_bit_flip_dropped scenario_a scenario_packet
    { elt := scenario_a, events := [], ret := some (scenario_packet.set_ip_header 0) } 10 3
    (by decide) (by decide) (by decide) (by decide) (by decide)

/-- The counterexample to C2: an accepted packet whose header-length field
reads 5; inverting bit 1 of byte 0, a bit inside its header, makes the field
read 7, the checksum then covers 28 bytes, which sum to zero, and the packet
is accepted again. -/
theorem header_bit_flip_accepted :
    simple_action in_cksum scenario_a ihl_flip_packet =
        some { elt := scenario_a, events := [],
               ret := some (ihl_flip_packet.set_ip_header 0) } ∧
      0 < ip_hlen ihl_flip_packet.data ∧
      simple_action in_cksum scenario_a (ihl_flip_packet.flip 0 1) =
        some { elt := scenario_a, events := [],
               ret := some ((ihl_flip_packet.flip 0 1).set_ip_header 0) } := by
  decide

/-- C3: after a successful `configure`, a packet that passes guards 1-6 and
whose source address is 0.0.0.0, 255.255.255.255 or an address parsed from
the configuration argument is dropped.  In particular, after
`configure("10.0.0.1")` on a fresh element, a packet that passes guards 1-6
and has source 10.0.0.1 is dropped: null is returned, the drop counter
becomes 1, one log line is emitted and the packet is killed. -/
theorem blocklisted_source_dropped (cp : ConfParse) (ck : List Byte → Nat) (conf : CStr)
    (e0 : CheckIPHeader) (p : Packet) :
    ((configure cp conf e0).ret = 0 → guards_1_6 ck p.data →
      (ip_src p.data = 0 ∨ ip_src p.data = 0xffffffff ∨
        ∃ s as, cp.cp_argvec conf = [s] ∧ parsed_addrs cp s = some as ∧ ip_src p.data ∈ as) →
      simple_action ck (configure cp conf e0).elt p = some (bad (configure cp conf e0).elt p) ∧
        (bad (configure cp conf e0).elt p).ret = none ∧
        (bad (configure cp conf e0).elt p).elt._drops = wrap_int (e0._drops + 1)) ∧
    (∀ junk, guards_1_6 ck p.data → ip_src p.data = u_int_of_bytes 10 0 0 1 →
      simple_action ck (configure confparse "10.0.0.1".toList (CheckIPHeader.ctor junk)).elt p =
        some { elt := { scenario_b with _drops := 1 },
               events := [Event.click_chatter "IP checksum failed", Event.kill p],
               ret := none }) := by
  constructor
  · intro hok _ hsrc
    refine ⟨simple_action_blocked ck _ p (configure_ok_configured cp conf e0 hok)
      ((configure_mem cp conf e0 _ hok).mpr hsrc), rfl, ?_⟩
    rw [bad_elt]
    exact congrArg (fun n => wrap_int (n + 1)) (configure_drops cp conf e0)
  · intro junk _ hsrc
    rw [configure_scenario_b]
    rw [simple_action_blocked ck scenario_b p (by decide) (by rw [hsrc]; decide)]
    rfl

/-- The witness of C3: scenario B, the well-formed packet with source
10.0.0.1 after `configure("10.0.0.1")` on a fresh element. -/
theorem blocklisted_source_dropped_witness :
    simple_action in_cksum
        (configure confparse "10.0.0.1".toList (CheckIPHeader.ctor 7)).elt scenario_packet =
      some { elt := { scenario_b with _drops := 1 },
             events := [Event.click_chatter "IP checksum failed", Event.kill scenario_packet],
             ret := none } :=
  (blocklisted_source_dropped confparse in_cksum [] scenario_a scenario_packet).2 7
    (by decide) (by decide)

/-- C4: a packet shorter than the fixed IPv4 header (20 bytes), the empty
packet included, is dropped by `simple_action` whatever its bytes, the
blocklist and the output count: the call is the drop path, it returns null,
runs `drop_it`, and forwards nothing to output 0. -/
theorem simple_action_drops_short (ck : List Byte → Nat) (e : CheckIPHeader) (p : Packet)
    (h : p.length < sizeof_click_ip) :
    simple_action ck e p = some (bad e p) ∧ (bad e p).ret = none ∧
      (bad e p).elt = (drop_it e p).1 ∧ (bad e p).events = (drop_it e p).2 ∧
      (drop_it e p).1._drops = wrap_int (e._drops + 1) ∧ ¬ (bad e p).forward_0 p := by
  refine ⟨simple_action_short ck e p h, rfl, rfl, rfl, ?_, ?_⟩
  · have := bad_elt e p
    unfold bad at this
    simp only at this
    rw [this]
  · intro hf
    exact absurd hf.1 (by simp [bad_ret])

/-- The witness of C4: the empty packet. -/
theorem simple_action_drops_short_witness :
    simple_action in_cksum scenario_a empty_packet = some (bad scenario_a empty_packet) ∧
      (bad scenario_a empty_packet).ret = none ∧
      (bad scenario_a empty_packet).elt = (drop_it scenario_a empty_packet).1 ∧
      (bad scenario_a empty_packet).events = (drop_it scenario_a empty_packet).2 ∧
      (drop_it scenario_a empty_packet).1._drops = wrap_int (scenario_a._drops + 1) ∧
      ¬ (bad scenario_a empty_packet).forward_0 empty_packet :=
  simple_action_drops_short in_cksum scenario_a empty_packet (by decide)

/-- C5: a rejected packet (null return) always went through the one drop
path, whichever guard failed.  With 2 outputs `drop_it` pushes that same
packet to output 1 and does not kill it; with 1 output it kills the packet
and pushes it nowhere.  In both cases nothing is pushed to output 0 and
nothing is returned. -/
theorem rejected_packet_routing (ck : List Byte → Nat) (e : CheckIPHeader) (p : Packet)
    (a : Action) (h : simple_action ck e p = some a) (hr : a.ret = none) :
    a = bad e p ∧ a.events = (drop_it e p).2 ∧
      (e._noutputs = 2 →
        non_log (drop_it e p).2 = [Event.push 1 p] ∧ ∀ q, Event.kill q ∉ a.events) ∧
      (e._noutputs = 1 →
        non_log (drop_it e p).2 = [Event.kill p] ∧ ∀ port q, Event.push port q ∉ a.events) ∧
      (∀ q, Event.push 0 q ∉ a.events) := by
  have ha := simple_action_null ck e p a h hr
  subst ha
  have hf := bad_filter e p
  have hev := bad_events e p
  refine ⟨rfl, rfl, ?_, ?_, ?_⟩
  · intro h2
    refine ⟨by simpa [h2] using hf, ?_⟩
    intro q hq
    rw [hev] at hq
    by_cases h0 : e._drops = 0 <;> simp [h0, h2] at hq
  · intro h1
    refine ⟨by simpa [h1] using hf, ?_⟩
    intro port q hq
    rw [hev] at hq
    by_cases h0 : e._drops = 0 <;> simp [h0, h1] at hq
  · intro q hq
    rw [hev] at hq
    by_cases h0 : e._drops = 0 <;> by_cases h2 : e._noutputs = 2 <;> simp [h0, h2] at hq

/-- The witness of C5: the empty packet on an element with two outputs. -/
theorem rejected_packet_routing_witness :
    bad scenario_two_outputs empty_packet = bad scenario_two_outputs empty_packet ∧
      (bad scenario_two_outputs empty_packet).events =
        (drop_it scenario_two_outputs empty_packet).2 ∧
      (scenario_two_outputs._noutputs = 2 →
        non_log (drop_it scenario_two_outputs empty_packet).2 = [Event.push 1 empty_packet] ∧
          ∀ q, Event.kill q ∉ (bad scenario_two_outputs empty_packet).events) ∧
      (scenario_two_outputs._noutputs = 1 →
        non_log (drop_it scenario_two_outputs empty_packet).2 = [Event.kill empty_packet] ∧
          ∀ port q, Event.push port q ∉ (bad scenario_two_outputs empty_packet).events) ∧
      (∀ q, Event.push 0 q ∉ (bad scenario_two_outputs empty_packet).events) :=
  rejected_packet_routing in_cksum scenario_two_outputs empty_packet
    (bad scenario_two_outputs empty_packet) (by decide) (by decide)

/-- C6 (amended): `simple_action` adds 1 to the 32-bit drop counter when it
rejects the packet, with the wrap of an `int` increment, so by exactly 1
whenever the counter is below its maximum `2 ^ 31 - 1`, and leaves it
unchanged when it accepts; `configure` never changes it.  Over any sequence
of `configure` and `simple_action` calls on a configured element the run
returns and the counter is the initial one plus the number of rejected
packets, wrapped; as long as that sum does not exceed `2 ^ 31 - 1` the
counter equals it and does not decrease from one prefix of the sequence to
a longer one. -/
theorem drop_counter_counts_rejections (cp : ConfParse) (ck : List Byte → Nat)
    (e : CheckIPHeader) :
    (∀ p a, simple_action ck e p = some a →
      (a.ret = none → a.elt._drops = wrap_int (e._drops + 1) ∧
        (-2147483648 ≤ e._drops → e._drops < 2147483647 → a.elt._drops = e._drops + 1)) ∧
      (a.ret ≠ none → a.elt._drops = e._drops)) ∧
    (∀ conf, (configure cp conf e).elt._drops = e._drops) ∧
    (e.configured → e.drops_is_int → ∀ calls, ∃ r, run cp ck e calls = some r ∧
      r.elt._drops = wrap_int (e._drops + r.rejected) ∧
      (e._drops + r.rejected ≤ 2147483647 → r.elt._drops = e._drops + r.rejected)) ∧
    (e.configured → e.drops_is_int → ∀ calls more, ∃ r1 r2, run cp ck e calls = some r1 ∧
      run cp ck e (calls ++ more) = some r2 ∧ r1.rejected ≤ r2.rejected ∧
      (e._drops + r2.rejected ≤ 2147483647 → r1.elt._drops ≤ r2.elt._drops)) := by
  refine ⟨?_, fun conf => configure_drops cp conf e, ?_, ?_⟩
  · intro p a h
    rcases simple_action_cases ck e p a h with hacc | hbad
    · subst hacc
      exact ⟨fun hn => absurd hn (by simp), fun _ => rfl⟩
    · subst hbad
      refine ⟨fun _ => ⟨by rw [bad_elt], fun h1 h2 => ?_⟩, fun hn => absurd (bad_ret e p) hn⟩
      rw [bad_elt]
      exact wrap_int_of_int _ (by omega) (by omega)
  · intro hc hi calls
    obtain ⟨r, hr, _, _, h2, _⟩ := run_spec cp ck calls e hc hi
    refine ⟨r, hr, h2, fun hb => ?_⟩
    rw [h2]
    have := hi.1
    exact wrap_int_of_int _ (by omega) hb
  · intro hc hi calls more
    obtain ⟨r1, hr1, hc1, hi1, h1, _⟩ := run_spec cp ck calls e hc hi
    obtain ⟨r2, hr2, _, _, h2, _⟩ := run_spec cp ck more r1.elt hc1 hi1
    refine ⟨r1, _, hr1, run_append cp ck calls more e r1 r2 hr1 hr2, ?_, ?_⟩
    · simp only
      omega
    · simp only
      intro hb
      have hlo := hi.1
      have e1 : wrap_int (e._drops + r1.rejected) = e._drops + r1.rejected :=
        wrap_int_of_int _ (by omega) (by omega)
      rw [h2, h1, wrap_int_add, e1]
      have e2 : wrap_int (e._drops + r1.rejected + r2.rejected) =
          e._drops + r1.rejected + r2.rejected :=
        wrap_int_of_int _ (by omega) (by omega)
      rw [e2]
      omega

/-- The counterexample to C6: a rejection at the counter's maximum
`2 ^ 31 - 1` takes the counter to `-2 ^ 31`; and from a fresh element
`2 ^ 32` rejected packets leave the counter at 0, below the 1 it holds after
the first of them and not the number of rejected packets. -/
theorem drop_counter_wraps :
    (∃ a, simple_action in_cksum scenario_a_full empty_packet = some a ∧ a.ret = none ∧
      scenario_a_full._drops = 2147483647 ∧ a.elt._drops = -2147483648) ∧
    (∃ r1 r2,
      run confparse in_cksum fresh_configured [Call.simple_action empty_packet] = some r1 ∧
      run confparse in_cksum fresh_configured
        (List.replicate 4294967296 (Call.simple_action empty_packet)) = some r2 ∧
      r1.elt._drops = 1 ∧ r2.rejected = 4294967296 ∧ r2.elt._drops = 0) := by
  constructor
  · exact ⟨bad scenario_a_full empty_packet, by decide, rfl, rfl, by decide⟩
  · obtain ⟨r2, hr2, _, _, h2, _⟩ := run_spec confparse in_cksum
      (List.replicate 4294967296 (Call.simple_action empty_packet)) fresh_configured
      (by decide) (by decide)
    have hrej := run_short_rejected confparse in_cksum empty_packet (by decide) _ _ r2 hr2
    refine ⟨{ elt := (bad fresh_configured empty_packet).elt,
              events := (bad fresh_configured empty_packet).events, rejected := 1 },
      r2, by decide, hr2, by decide, hrej, ?_⟩
    rw [h2, hrej]
    decide

/-- C7 (amended): on an element whose counter is 0, as the constructor
leaves it, any sequence of calls returns; every log line is the literal
"IP checksum failed"; and when the sequence holds at most `2 ^ 32` rejected
packets the line is emitted exactly once if some packet is rejected and not
at all otherwise: it is the first effect of the run, ahead of the push or
kill of the first rejected packet, and every other effect is one push or
kill per rejected packet. -/
theorem checksum_failed_logged_once (cp : ConfParse) (ck : List Byte → Nat)
    (e : CheckIPHeader) (calls : List Call) (hc : e.configured) (h0 : e._drops = 0) :
    ∃ r, run cp ck e calls = some r ∧
      (non_log r.events).length = r.rejected ∧
      (∀ msg, Event.click_chatter msg ∈ r.events → msg = "IP checksum failed") ∧
      (r.rejected ≤ 4294967296 →
        r.events =
          (if r.rejected ≠ 0 then [Event.click_chatter "IP checksum failed"] else []) ++
            non_log r.events ∧
        (r.events.filter Event.is_chatter).length = (if r.rejected ≠ 0 then 1 else 0)) := by
  have hi : e.drops_is_int := by
    unfold CheckIPHeader.drops_is_int
    rw [h0]
    decide
  obtain ⟨r, hr, _, _, _, h3, hm, h4⟩ := run_spec cp ck calls e hc hi
  have hnl : (non_log r.events).filter Event.is_chatter = [] := by
    simp [non_log, List.filter_filter]
  refine ⟨r, hr, h3, hm, fun hb => ?_⟩
  have h4' := h4 (by rw [h0]; omega)
  simp only [h0, true_and] at h4'
  refine ⟨h4', ?_⟩
  rw [h4', List.filter_append, hnl]
  by_cases hz : r.rejected = 0 <;> simp [hz, Event.is_chatter]

/-- The witness of C7: a short, a well-formed and a short packet on a fresh
element configured with the empty string. -/
theorem checksum_failed_logged_once_witness :
    ∃ r, run confparse in_cksum fresh_configured three_packets = some r ∧
      (non_log r.events).length = r.rejected ∧
      (∀ msg, Event.click_chatter msg ∈ r.events → msg = "IP checksum failed") ∧
      (r.rejected ≤ 4294967296 →
        r.events =
          (if r.rejected ≠ 0 then [Event.click_chatter "IP checksum failed"] else []) ++
            non_log r.events ∧
        (r.events.filter Event.is_chatter).length = (if r.rejected ≠ 0 then 1 else 0)) :=
  checksum_failed_logged_once confparse in_cksum fresh_configured three_packets
    (by decide) (by decide)

/-- The counterexample to C7: from a fresh element, `2 ^ 32` rejected packets
bring the counter back to 0, and the next rejected packet emits the log line
a second time. -/
theorem checksum_failed_logged_twice :
    ∃ r, run confparse in_cksum fresh_configured
        (List.replicate 4294967296 (Call.simple_action empty_packet) ++
          [Call.simple_action empty_packet]) = some r ∧
      r.rejected = 4294967297 ∧
      (r.events.filter Event.is_chatter).length = 2 := by
  obtain ⟨r1, hr1, hc1, _, h2, _, _, h4⟩ := run_spec confparse in_cksum
    (List.replicate 4294967296 (Call.simple_action empty_packet)) fresh_configured
    (by decide) (by decide)
  have hrej := run_short_rejected confparse in_cksum empty_packet (by decide) _ _ r1 hr1
  have hd : r1.elt._drops = 0 := by
    rw [h2, hrej]
    decide
  have hev := h4 (by rw [hrej]; decide)
  rw [hrej] at hev
  have hif : (if fresh_configured._drops = 0 ∧ (4294967296 : Nat) ≠ 0 then
      [Event.click_chatter "IP checksum failed"] else []) =
      [Event.click_chatter "IP checksum failed"] := if_pos ⟨by decide, by decide⟩
  rw [hif] at hev
  have hev' : r1.events = Event.click_chatter "IP checksum failed" :: non_log r1.events := hev
  have hnl : (non_log r1.events).filter Event.is_chatter = [] := by
    simp [non_log, List.filter_filter]
  have hlast : run confparse in_cksum r1.elt [Call.simple_action empty_packet] =
      some { elt := (bad r1.elt empty_packet).elt,
             events := (bad r1.elt empty_packet).events ++ [], rejected := 1 + 0 } := by
    rw [run, simple_action_short in_cksum r1.elt empty_packet (by decide)]
    rfl
  refine ⟨_, run_append confparse in_cksum _ _ fresh_configured r1 _ hr1 hlast, ?_, ?_⟩
  · simp only
    omega
  · simp only [List.append_nil]
    rw [hev', bad_events, hd]
    simp only [if_true, List.filter_append, List.filter_cons, hnl]
    by_cases hn : r1.elt._noutputs = 2 <;> simp [hn, Event.is_chatter]

/-- C8: a `configure` call that fails leaves the element as it was: the
blocklist array, its count and the drop counter are unchanged, and every
packet gets the same result as before the call.  Both failures named by the
claim are failures: more than one argument, and a literal that does not
parse. -/
theorem failed_configure_keeps_state (cp : ConfParse) (conf : CStr) (e : CheckIPHeader) :
    ((configure cp conf e).ret ≠ 0 →
      (configure cp conf e).elt = e ∧
      (configure cp conf e).elt._bad_src = e._bad_src ∧
      (configure cp conf e).elt._n_bad_src = e._n_bad_src ∧
      (configure cp conf e).elt._drops = e._drops ∧
      ∀ ck p, simple_action ck (configure cp conf e).elt p = simple_action ck e p) ∧
    (1 < (cp.cp_argvec conf).length → (configure cp conf e).ret ≠ 0) ∧
    (∀ s, cp.cp_argvec conf = [s] → parsed_addrs cp s = none →
      (configure cp conf e).ret ≠ 0) := by
  refine ⟨?_, ?_, ?_⟩
  · intro hf
    have h := configure_failed cp conf e hf
    refine ⟨h, by rw [h], by rw [h], by rw [h], ?_⟩
    intro ck p
    rw [h]
  · intro hlen
    unfold configure
    simp [hlen, errh_error]
  · intro s hs hp
    rw [configure_bad_literal cp conf s e hs hp]
    simp [errh_error]

/-- The witness of C8: a literal that does not parse, on the element of
scenario A; the blocklist is kept. -/
theorem failed_configure_keeps_state_witness :
    (configure confparse "10.0.0.1 bogus".toList scenario_a).ret ≠ 0 ∧
      (configure confparse "10.0.0.1 bogus".toList scenario_a).elt = scenario_a := by
  have h := failed_configure_keeps_state confparse "10.0.0.1 bogus".toList scenario_a
  have hf := h.2.2 "10.0.0.1 bogus".toList (by decide) parsed_addrs_bogus
  exact ⟨hf, (h.1 hf).1⟩

/-- C9: when `configure` succeeds on a string, it succeeds on it from every
prior state, and the blocklist it leaves (array and count) is the same from
every prior state.  Configuring twice with the same string gives the same
result as configuring once, and every packet gets the same accept/reject
decision whatever the prior state was. -/
theorem configure_depends_only_on_string (cp : ConfParse) (conf : CStr)
    (e1 e2 : CheckIPHeader) (h : (configure cp conf e1).ret = 0) :
    (configure cp conf e2).ret = 0 ∧
      (configure cp conf e1).elt._bad_src = (configure cp conf e2).elt._bad_src ∧
      (configure cp conf e1).elt._n_bad_src = (configure cp conf e2).elt._n_bad_src ∧
      configure cp conf (configure cp conf e1).elt = configure cp conf e1 ∧
      (∀ ck p, (simple_action ck (configure cp conf e1).elt p).map (fun a => a.ret) =
        (simple_action ck (configure cp conf e2).elt p).map (fun a => a.ret)) ∧
      (∀ ck p, simple_action ck (configure cp conf (configure cp conf e1).elt).elt p =
        simple_action ck (configure cp conf e1).elt p) := by
  have hb := configure_blocklist_indep cp conf e1 e2 h
  have htwice := configure_twice cp conf e1 h
  refine ⟨by rw [← configure_ret_indep cp conf e1 e2]; exact h, hb.1, hb.2, htwice, ?_, ?_⟩
  · intro ck p
    exact simple_action_ret_congr ck _ _ p hb.1 hb.2
  · intro ck p
    rw [htwice]

/-- The witness of C9: "10.0.0.1" from a fresh element and from the element
of scenario A. -/
theorem configure_depends_only_on_string_witness :
    (configure confparse "10.0.0.1".toList scenario_a).ret = 0 ∧
      (configure confparse "10.0.0.1".toList (CheckIPHeader.ctor 7)).elt._bad_src =
        (configure confparse "10.0.0.1".toList scenario_a).elt._bad_src :=
  have h := configure_depends_only_on_string confparse "10.0.0.1".toList
    (CheckIPHeader.ctor 7) scenario_a (by rw [configure_scenario_b])
  ⟨h.1, h.2.1⟩

/-- C10: when the addresses parsed from one argument are those parsed from
another with one more occurrence of an address that occurs earlier in the
list or is one of the two defaults 0.0.0.0 and 255.255.255.255, `configure`
gives the same result on both: the same blocklist array, hence the same
size and the same members. -/
theorem configure_ignores_repeats (cp : ConfParse) (conf1 conf2 s1 s2 : CStr)
    (e : CheckIPHeader) (pre post : List Nat) (a : Nat)
    (h1 : cp.cp_argvec conf1 = [s1]) (h2 : cp.cp_argvec conf2 = [s2])
    (hp1 : parsed_addrs cp s1 = some (pre ++ a :: post))
    (hp2 : parsed_addrs cp s2 = some (pre ++ post))
    (ha : a ∈ pre ∨ a = 0 ∨ a = 0xffffffff) :
    configure cp conf1 e = configure cp conf2 e ∧
      (configure cp conf1 e).ret = 0 ∧
      (configure cp conf1 e).elt._bad_src = (configure cp conf2 e).elt._bad_src ∧
      (configure cp conf1 e).elt._n_bad_src = (configure cp conf2 e).elt._n_bad_src ∧
      (configure cp conf1 e).elt._bad_src.length = (configure cp conf2 e).elt._bad_src.length ∧
      (∀ x, x ∈ (configure cp conf1 e).elt._bad_src ↔ x ∈ (configure cp conf2 e).elt._bad_src) := by
  have hmem : a ∈ [0, 0xffffffff] ∨ a ∈ pre := by
    rcases ha with h | h | h
    · exact Or.inr h
    · exact Or.inl (by simp [h])
    · exact Or.inl (by simp [h])
  have heq : configure cp conf1 e = configure cp conf2 e := by
    rw [configure_one_arg cp conf1 s1 e _ h1 hp1, configure_one_arg cp conf2 s2 e _ h2 hp2,
      foldl_push_skip pre post _ a hmem]
  refine ⟨heq, ?_, by rw [heq], by rw [heq], by rw [heq], fun x => by rw [heq]⟩
  rw [configure_one_arg cp conf1 s1 e _ h1 hp1]

/-- The witness of C10: "1.2.3.4 1.2.3.4" against "1.2.3.4". -/
theorem configure_ignores_repeats_witness :
    configure confparse "1.2.3.4 1.2.3.4".toList scenario_a =
        configure confparse "1.2.3.4".toList scenario_a ∧
      (configure confparse "1.2.3.4 1.2.3.4".toList scenario_a).elt._bad_src =
        [0, 0xffffffff, 0x04030201] :=
  have h := configure_ignores_repeats confparse "1.2.3.4 1.2.3.4".toList "1.2.3.4".toList
    "1.2.3.4 1.2.3.4".toList "1.2.3.4".toList scenario_a [0x04030201] [] 0x04030201
    (by decide) (by decide) parsed_addrs_twice parsed_addrs_single (Or.inl (by decide))
  ⟨h.1, by
    rw [h.1, configure_one_arg confparse _ "1.2.3.4".toList scenario_a _ (by decide)
      parsed_addrs_single]
    decide⟩

/-- C11: after a successful `configure` the blocklist is duplicate-free,
begins with 0x00000000 and 0xffffffff in that order, continues with the
distinct parsed addresses other than those two in order of first
occurrence, and the stored count `_n_bad_src` is the length of that list,
which is at least 2. -/
theorem configure_blocklist_shape (cp : ConfParse) (conf : CStr) (e : CheckIPHeader)
    (h : (configure cp conf e).ret = 0) :
    ∃ as, ((cp.cp_argvec conf = [] ∧ as = []) ∨
        ∃ s, cp.cp_argvec conf = [s] ∧ parsed_addrs cp s = some as) ∧
      (configure cp conf e).elt._bad_src =
        [0, 0xffffffff] ++
          (first_occurrences as).filter (fun a => decide (a ≠ 0 ∧ a ≠ 0xffffffff)) ∧
      (configure cp conf e).elt._bad_src.Nodup ∧
      (configure cp conf e).elt._n_bad_src = (configure cp conf e).elt._bad_src.length ∧
      2 ≤ (configure cp conf e).elt._n_bad_src := by
  have hshape : ∀ as : List Nat,
      as.foldl push_unless_repeat [0, 0xffffffff] =
        [0, 0xffffffff] ++
          (first_occurrences as).filter (fun a => decide (a ≠ 0 ∧ a ≠ 0xffffffff)) := by
    intro as
    rw [foldl_push_eq]
    congr 1
    apply List.filter_congr
    intro x _
    simp
  have hnodup : ∀ as : List Nat,
      ([0, 0xffffffff] ++
        (first_occurrences as).filter (fun a => decide (a ≠ 0 ∧ a ≠ 0xffffffff))).Nodup := by
    intro as
    rw [List.nodup_append]
    refine ⟨by decide, (first_occurrences_nodup as).filter _, ?_⟩
    intro x hx hx'
    have := (List.mem_filter.mp hx').2
    simp only [List.mem_cons, List.mem_nil_iff, or_false] at hx
    rcases hx with hx | hx <;> simp [hx] at this
  rcases configure_cases cp conf with (h0 | ⟨s, as, h0, hp⟩) | ⟨s, h0, hp⟩ | ⟨s, s2, t, h0⟩
  · refine ⟨[], Or.inl ⟨h0, rfl⟩, ?_⟩
    rw [configure_no_args cp conf e h0]
    refine ⟨rfl, ?_, rfl, ?_⟩
    · show ([0, 0xffffffff] : List Nat).Nodup
      decide
    · show 2 ≤ 2
      exact Nat.le_refl 2
  · refine ⟨as, Or.inr ⟨s, h0, hp⟩, ?_⟩
    rw [configure_one_arg cp conf s e as h0 hp]
    refine ⟨hshape as, ?_, rfl, ?_⟩
    · show (as.foldl push_unless_repeat [0, 0xffffffff]).Nodup
      rw [hshape as]
      exact hnodup as
    · show 2 ≤ (as.foldl push_unless_repeat [0, 0xffffffff]).length
      exact foldl_push_length as [0, 0xffffffff]
  · rw [configure_bad_literal cp conf s e h0 hp] at h
    exact absurd h (by simp [errh_error])
  · rw [configure_many_args cp conf s s2 t e h0] at h
    exact absurd h (by simp [errh_error])

/-- The witness of C11: "1.2.3.4 1.2.3.4" on the element of scenario A. -/
theorem configure_blocklist_shape_witness :
    ∃ as, ((confparse.cp_argvec "1.2.3.4 1.2.3.4".toList = [] ∧ as = []) ∨
        ∃ s, confparse.cp_argvec "1.2.3.4 1.2.3.4".toList = [s] ∧
          parsed_addrs confparse s = some as) ∧
      (configure confparse "1.2.3.4 1.2.3.4".toList scenario_a).elt._bad_src =
        [0, 0xffffffff] ++
          (first_occurrences as).filter (fun a => decide (a ≠ 0 ∧ a ≠ 0xffffffff)) ∧
      (configure confparse "1.2.3.4 1.2.3.4".toList scenario_a).elt._bad_src.Nodup ∧
      (configure confparse "1.2.3.4 1.2.3.4".toList scenario_a).elt._n_bad_src =
        (configure confparse "1.2.3.4 1.2.3.4".toList scenario_a).elt._bad_src.length ∧
      2 ≤ (configure confparse "1.2.3.4 1.2.3.4".toList scenario_a).elt._n_bad_src :=
  configure_blocklist_shape confparse "1.2.3.4 1.2.3.4".toList scenario_a
    (by rw [configure_one_arg confparse _ "1.2.3.4 1.2.3.4".toList scenario_a _ (by decide)
      parsed_addrs_twice])

/-- C12: `configure` fails, returning the error handler's result and leaving
the element untouched, when the argument vector has more than one element
and when a literal of the single argument fails to parse; it returns 0 for
no argument and for one argument all of whose literals parse. -/
theorem configure_fails_or_succeeds (cp : ConfParse) (conf : CStr) (e : CheckIPHeader) :
    (1 < (cp.cp_argvec conf).length →
      configure cp conf e =
        errh_error "too many arguments to \x60CheckIPHeader([ADDRS])\x27" e ∧
      (configure cp conf e).ret < 0 ∧ (configure cp conf e).elt = e) ∧
    (∀ s, cp.cp_argvec conf = [s] → parsed_addrs cp s = none →
      configure cp conf e = errh_error "expects IPADDRESS" e ∧
      (configure cp conf e).ret < 0 ∧ (configure cp conf e).elt = e) ∧
    (∀ s, cp.cp_argvec conf = [s] → s ≠ [] → cp.cp_ip_address s = none →
      (configure cp conf e).ret < 0 ∧ (configure cp conf e).elt = e) ∧
    (cp.cp_argvec conf = [] →
      (configure cp conf e).ret = 0 ∧ (configure cp conf e).errors = []) ∧
    (∀ s as, cp.cp_argvec conf = [s] → parsed_addrs cp s = some as →
      (configure cp conf e).ret = 0 ∧ (configure cp conf e).errors = []) := by
  refine ⟨?_, ?_, ?_, ?_, ?_⟩
  · intro hlen
    cases hargs : cp.cp_argvec conf with
    | nil => rw [hargs] at hlen; simp at hlen
    | cons s t =>
      cases t with
      | nil => rw [hargs] at hlen; simp at hlen
      | cons s2 t2 =>
        rw [configure_many_args cp conf s s2 t2 e hargs]
        exact ⟨rfl, by simp [errh_error], rfl⟩
  · intro s hs hp
    rw [configure_bad_literal cp conf s e hs hp]
    exact ⟨rfl, by simp [errh_error], rfl⟩
  · intro s hs hne hp
    rw [configure_bad_literal cp conf s e hs (parsed_addrs_fail cp s hne hp)]
    exact ⟨by simp [errh_error], rfl⟩
  · intro hargs
    rw [configure_no_args cp conf e hargs]
    exact ⟨rfl, rfl⟩
  · intro s as hs hp
    rw [configure_one_arg cp conf s e as hs hp]
    exact ⟨rfl, rfl⟩

/-- The witness of C12: two arguments fail, "10.0.0.1 bogus" fails, the
empty string and "10.0.0.1" succeed. -/
theorem configure_fails_or_succeeds_witness :
    (configure confparse "10.0.0.1,1.2.3.4".toList scenario_a).ret < 0 ∧
      (configure confparse "10.0.0.1 bogus".toList scenario_a).ret < 0 ∧
      (configure confparse [] scenario_a).ret = 0 ∧
      (configure confparse "10.0.0.1".toList scenario_a).ret = 0 :=
  ⟨((configure_fails_or_succeeds confparse "10.0.0.1,1.2.3.4".toList scenario_a).1
      (by decide)).2.1,
    ((configure_fails_or_succeeds confparse "10.0.0.1 bogus".toList scenario_a).2.1
      "10.0.0.1 bogus".toList (by decide) parsed_addrs_bogus).2.1,
    ((configure_fails_or_succeeds confparse [] scenario_a).2.2.2.1 (by decide)).1,
    ((configure_fails_or_succeeds confparse "10.0.0.1".toList scenario_a).2.2.2.2
      "10.0.0.1".toList [0x0100000a] (by decide) parsed_addrs_one).1⟩

/-- C13: for every requested count `n`, negative ones and 0 included,
`notify_noutputs` sets the number of outputs to 2 when `n >= 2` and to 1
otherwise, so it is always 1 or 2; nothing else of the element changes. -/
theorem notify_noutputs_clamps (e : CheckIPHeader) (n : Int) :
    (notify_noutputs e n)._noutputs = (if 2 ≤ n then 2 else 1) ∧
      ((notify_noutputs e n)._noutputs = 1 ∨ (notify_noutputs e n)._noutputs = 2) ∧
      (notify_noutputs e n)._bad_src = e._bad_src ∧
      (notify_noutputs e n)._n_bad_src = e._n_bad_src ∧
      (notify_noutputs e n)._drops = e._drops := by
  unfold notify_noutputs
  by_cases h : n < 2
  · have h' : ¬ 2 ≤ n := by omega
    simp [h, h']
  · have h' : 2 ≤ n := by omega
    simp [h, h']

/-- C14: when `simple_action` accepts a packet, the returned packet is the
input packet with the same data bytes and length and with its IP-header
annotation set to offset 0 of the data; the element, its drop counter
included, is unchanged and there is no effect at all: no log line, no push
to output 1, no kill. -/
theorem accepted_packet_frame (ck : List Byte → Nat) (e : CheckIPHeader) (p q : Packet)
    (a : Action) (h : simple_action ck e p = some a) (hr : a.ret = some q) :
    q = p.set_ip_header 0 ∧ q.data = p.data ∧ q.length = p.length ∧
      q.ip_header = some 0 ∧ a.elt = e ∧ a.elt._drops = e._drops ∧ a.events = [] ∧
      guards_1_6 ck p.data := by
  have hg := simple_action_accepted_guards ck e p a h (by rw [hr]; simp)
  rcases simple_action_cases ck e p a h with hacc | hbad
  · subst hacc
    simp only [Option.some.injEq] at hr
    subst hr
    exact ⟨rfl, rfl, rfl, rfl, rfl, rfl, rfl, hg⟩
  · subst hbad
    rw [bad_ret] at hr
    exact absurd hr (by simp)

/-- The witness of C14: scenario A. -/
theorem accepted_packet_frame_witness :
    scenario_packet.set_ip_header 0 = scenario_packet.set_ip_header 0 ∧
      (scenario_packet.set_ip_header 0).data = scenario_packet.data ∧
      (scenario_packet.set_ip_header 0).length = scenario_packet.length ∧
      (scenario_packet.set_ip_header 0).ip_header = some 0 ∧
      scenario_a = scenario_a ∧ scenario_a._drops = scenario_a._drops ∧
      ([] : List Event) = [] ∧ guards_1_6 in_cksum scenario_packet.data :=
  accepted_packet_frame in_cksum scenario_a scenario_packet (scenario_packet.set_ip_header 0)
    { elt := scenario_a, events := [], ret := some (scenario_packet.set_ip_header 0) }
    (by decide) rfl

/-- C15 (amended): on a `Print` element left by a successful `configure`
with maximum `M`, `0 <= M <= 1431655764` (so that `3 * M + 1` is below
`2 ^ 32`), `simple_action` returns the very same packet, and the scratch
buffer then holds, from its start, the preview of the first `n = min L M`
bytes -- for each byte in order its two lowercase hex digits, followed by
one space when its index is 3 modulo 4 -- and a NUL right after it; the
string has `2 n + n / 4` characters, it is the C string in the buffer and
the preview of the log line.  Label and maximum are unchanged. -/
theorem print_renders_preview (env : PrintEnv) (conf : CStr) (e0 : Print) (p : Packet)
    (M : Nat) (h : (Print.configure env conf e0).ret = 0)
    (hM : (Print.configure env conf e0).elt._bytes = (M : Int)) (hint : M ≤ 1431655764) :
    ∃ a buf, Print.simple_action (Print.configure env conf e0).elt p = some a ∧
      a.ret = p ∧ a.elt._buf = some buf ∧
      buf.take (2 * min p.length M + min p.length M / 4 + 1) =
        hex_preview (p.data.take (min p.length M)) ++ [nul] ∧
      c_string buf = hex_preview (p.data.take (min p.length M)) ∧
      (hex_preview (p.data.take (min p.length M))).length =
        2 * min p.length M + min p.length M / 4 ∧
      a.line.preview = hex_preview (p.data.take (min p.length M)) ∧
      a.elt._label = (Print.configure env conf e0).elt._label ∧
      a.elt._bytes = (Print.configure env conf e0).elt._bytes := by
  obtain ⟨buf, hb, hcap⟩ := print_configure_ok env conf e0 h
  rw [hM] at hcap
  have hcap' : buf.length = 3 * M + 1 := by
    unfold wrap_int at hcap
    omega
  obtain ⟨b1, b2, _, hs, _, ht, _⟩ :=
    print_simple_action_preview (Print.configure env conf e0).elt p buf M hb hM (by omega)
      hcap'
  have hlen : (hex_preview (p.data.take (min p.length M))).length =
      2 * min p.length M + min p.length M / 4 := by
    rw [hex_preview_length, List.length_take]
    have : min (min p.length M) p.data.length = min p.length M := by
      simp only [Packet.length]
      omega
    rw [this]
  refine ⟨_, b2, hs, rfl, rfl, ?_, ?_, hlen, rfl, rfl, rfl⟩
  · rw [← hlen]
    exact ht
  · exact c_string_of_take b2 _ _ ht (hex_preview_ne_nul _)

/-- The witness of C15: the 20-byte packet on the element configured with
"x,4"; the preview is "45000014 ". -/
theorem print_renders_preview_witness :
    ∃ a buf, Print.simple_action print_x4 scenario_packet = some a ∧
      a.ret = scenario_packet ∧ a.elt._buf = some buf ∧
      c_string buf = "45000014 ".toList ∧ a.line.preview = "45000014 ".toList := by
  obtain ⟨a, buf, h1, h2, h3, _, h5, _, h7, _⟩ :=
    print_renders_preview print_env "x,4".toList (Print.ctor 0) scenario_packet 4
      (by decide) (by decide) (by decide)
  have hp : hex_preview (scenario_packet.data.take (min scenario_packet.length 4)) =
      "45000014 ".toList := by decide
  rw [hp] at h5 h7
  exact ⟨a, buf, h1, h2, h3, h5, h7⟩

/-- The counterexample to C15: `configure` with maximum 1431655766 succeeds
with a buffer of 3 characters, since `3 * 1431655766 + 1` wraps to 3; on the
20-byte packet `simple_action` then writes outside the buffer and no
NUL-terminated preview is left. -/
theorem print_overruns_wrapped_buffer :
    (Print.configure print_env "x,1431655766".toList (Print.ctor 0)).ret = 0 ∧
      print_huge._bytes = 1431655766 ∧ print_huge._buf = some (List.replicate 3 nul) ∧
      Print.simple_action print_huge scenario_packet = none := by
  decide

/-- C16 (what the code does): a failed `Print::configure` does not leave the
element as it was.  `_bytes = 24` is stored before the arguments are parsed,
so after a failing call the element holds whatever `cp_va_parse` left of
the label and of that 24, with the old buffer.  On the element configured
with "x,4" (buffer of 13 characters) the failing call `configure("x,bogus")`
leaves the maximum 24 with the 13-character buffer, and `simple_action` on
a 20-byte packet, which returned before the call, then writes outside the
buffer. -/
theorem print_failed_configure_resets_bytes :
    (∀ (env : PrintEnv) (conf : CStr) (e : Print), (env.cp_va_parse conf e._label 24).1 < 0 →
      (Print.configure env conf e).ret = -1 ∧
      (Print.configure env conf e).elt =
        { e with _label := (env.cp_va_parse conf e._label 24).2.1,
                 _bytes := (env.cp_va_parse conf e._label 24).2.2 }) ∧
    print_x4._bytes = 4 ∧ print_x4._buf = some (List.replicate 13 nul) ∧
    (Print.configure print_env "x,bogus".toList print_x4).ret = -1 ∧
    (Print.configure print_env "x,bogus".toList print_x4).elt._bytes = 24 ∧
    (Print.configure print_env "x,bogus".toList print_x4).elt._buf =
      some (List.replicate 13 nul) ∧
    (Print.configure print_env "x,bogus".toList print_x4).elt ≠ print_x4 ∧
    (Print.simple_action print_x4 scenario_packet).isSome = true ∧
    Print.simple_action (Print.configure print_env "x,bogus".toList print_x4).elt
      scenario_packet = none := by
  refine ⟨?_, by decide, by decide, by decide, by decide, by decide, by decide, by decide,
    by decide⟩
  intro env conf e hneg
  unfold Print.configure
  simp only [hneg, if_true]
  exact ⟨trivial, trivial⟩

/-- C17: a packet that fails one of guards 1-4 takes the drop path whatever
the checksum function and the blocklist are, an array shorter than its
stored count included: null is returned, the effects and the element are
those of `drop_it`, and the blocklist is handed on untouched.  A packet that
fails one of guards 1-6 takes the drop path whatever the blocklist is.  So
the checksum is not consulted before guards 1-4 hold, and the blocklist is
not scanned before guards 1-6 hold. -/
theorem early_guards_ignore_checksum_and_blocklist (e : CheckIPHeader) (p : Packet) :
    (¬ guards_1_4 p.data → ∀ (ck : List Byte → Nat) (bs : List Nat) (n : Nat),
      simple_action ck (with_blocklist e bs n) p = some (bad (with_blocklist e bs n) p) ∧
      (bad (with_blocklist e bs n) p).ret = none ∧
      (bad (with_blocklist e bs n) p).events = (bad e p).events ∧
      (bad (with_blocklist e bs n) p).elt = with_blocklist (bad e p).elt bs n) ∧
    (∀ ck : List Byte → Nat, ¬ guards_1_6 ck p.data → ∀ (bs : List Nat) (n : Nat),
      simple_action ck (with_blocklist e bs n) p = some (bad (with_blocklist e bs n) p) ∧
      (bad (with_blocklist e bs n) p).ret = none ∧
      (bad (with_blocklist e bs n) p).events = (bad e p).events ∧
      (bad (with_blocklist e bs n) p).elt = with_blocklist (bad e p).elt bs n) := by
  constructor
  · intro hg ck bs n
    exact ⟨simple_action_reject_structural ck _ p hg, bad_with_blocklist e bs n p⟩
  · intro ck hg bs n
    exact ⟨simple_action_reject_early ck _ p hg, bad_with_blocklist e bs n p⟩

/-- The witness of C17: the empty packet with two checksum functions and two
blocklists, one of them an array shorter than its stored count. -/
theorem early_guards_ignore_checksum_and_blocklist_witness :
    simple_action in_cksum (with_blocklist scenario_a [] 5) empty_packet =
        some (bad (with_blocklist scenario_a [] 5) empty_packet) ∧
      simple_action (fun _ => 1) (with_blocklist scenario_a [7] 1) empty_packet =
        some (bad (with_blocklist scenario_a [7] 1) empty_packet) ∧
      (bad (with_blocklist scenario_a [] 5) empty_packet).events =
        (bad (with_blocklist scenario_a [7] 1) empty_packet).events :=
  have h := (early_guards_ignore_checksum_and_blocklist scenario_a empty_packet).1 (by decide)
  ⟨(h in_cksum [] 5).1, (h (fun _ => 1) [7] 1).1,
    (h in_cksum [] 5).2.2.1.trans (h (fun _ => 1) [7] 1).2.2.1.symm⟩

/-- C18 (amended): on a `Print` element left by a successful `configure`
with maximum `M`, `0 <= M <= 1431655764` (so that `3 * M + 1` is below
`2 ^ 32`), the buffer has `3 * M + 1` characters, and on every packet the
loop of `simple_action` and the final terminator write inside it: the loop
ends at position `2 n + n / 4` with `n = min L M`, which is at most `3 * M`,
and `simple_action` returns.  A write is `none` exactly at an index that is
not below the capacity, so no index written reaches `3 * M + 1`. -/
theorem print_writes_in_range (env : PrintEnv) (conf : CStr) (e0 : Print) (p : Packet)
    (M : Nat) (h : (Print.configure env conf e0).ret = 0)
    (hM : (Print.configure env conf e0).elt._bytes = (M : Int)) (hint : M ≤ 1431655764) :
    ∃ buf pos b1, (Print.configure env conf e0).elt._buf = some buf ∧
      buf.length = 3 * M + 1 ∧
      print_loop p.data (min p.length M) 0 0 buf = some (pos, b1) ∧
      pos = 2 * min p.length M + min p.length M / 4 ∧ pos ≤ 3 * M ∧ pos < buf.length ∧
      Print.simple_action (Print.configure env conf e0).elt p ≠ none ∧
      (∀ (b : List Char) (i : Nat) (c : Char), wr b i c = none ↔ b.length ≤ i) := by
  obtain ⟨buf, hb, hcap⟩ := print_configure_ok env conf e0 h
  rw [hM] at hcap
  have hcap' : buf.length = 3 * M + 1 := by
    unfold wrap_int at hcap
    omega
  obtain ⟨b1, b2, hl, hs, _, _, hlt⟩ :=
    print_simple_action_preview (Print.configure env conf e0).elt p buf M hb hM (by omega)
      hcap'
  have hlen : (hex_preview (p.data.take (min p.length M))).length =
      2 * min p.length M + min p.length M / 4 := by
    rw [hex_preview_length, List.length_take]
    have : min (min p.length M) p.data.length = min p.length M := by
      simp only [Packet.length]
      omega
    rw [this]
  refine ⟨buf, _, b1, hb, hcap', hl, hlen, by omega, hlt, ?_, wr_none_iff⟩
  rw [hs]
  simp

/-- The witness of C18: the 20-byte packet on the element configured with
"x,4". -/
theorem print_writes_in_range_witness :
    ∃ buf pos b1, print_x4._buf = some buf ∧ buf.length = 3 * 4 + 1 ∧
      print_loop scenario_packet.data (min scenario_packet.length 4) 0 0 buf = some (pos, b1) ∧
      pos = 2 * min scenario_packet.length 4 + min scenario_packet.length 4 / 4 ∧
      pos ≤ 3 * 4 ∧ pos < buf.length ∧
      Print.simple_action print_x4 scenario_packet ≠ none ∧
      (∀ (b : List Char) (i : Nat) (c : Char), wr b i c = none ↔ b.length ≤ i) :=
  print_writes_in_range print_env "x,4".toList (Print.ctor 0) scenario_packet 4
    (by decide) (by decide) (by decide)

/-- The counterexample to C18: `configure` with maximum 1431655765 succeeds
with a buffer of 0 characters, since `3 * 1431655765 + 1` is `2 ^ 32` and
wraps to 0, not the `3 * M + 1` characters of the claim; on the empty packet
the final terminator is written at index 0, outside the buffer. -/
theorem print_terminator_outside_empty_buffer :
    (Print.configure print_env "x,1431655765".toList (Print.ctor 0)).ret = 0 ∧
      print_empty_buffer._bytes = 1431655765 ∧ print_empty_buffer._buf = some [] ∧
      wr [] 0 nul = none ∧
      Print.simple_action print_empty_buffer empty_packet = none := by
  decide

/-- C19: in the embedding every read is checked: a byte read is `none`
exactly at an offset that is not below the packet length, the read of the
header is `none` exactly when it is longer than the packet, and the
blocklist scan is `none` only when it reads an index that is not below the
size of the array.  On an element left by a successful `configure`,
`simple_action` returns a result on every packet of any length and bytes:
no read leaves the packet or the blocklist, and the function terminates. -/
theorem simple_action_reads_in_range (cp : ConfParse) (ck : List Byte → Nat) (conf : CStr)
    (e0 : CheckIPHeader) (p : Packet) (h : (configure cp conf e0).ret = 0) :
    (∃ a, simple_action ck (configure cp conf e0).elt p = some a) ∧
      (configure cp conf e0).elt._n_bad_src = (configure cp conf e0).elt._bad_src.length ∧
      (∀ i, rd8 p.data i = none ↔ p.data.length ≤ i) ∧
      (∀ n, rdn p.data n = none ↔ p.data.length < n) ∧
      (∀ bs src i k, bad_src_scan bs src i k = none → bs.length < i + k) := by
  have hc := configure_ok_configured cp conf e0 h
  exact ⟨simple_action_total ck _ p hc, hc, rd8_none_iff p.data, rdn_none_iff p.data,
    fun bs src i k => bad_src_scan_none bs src k i⟩

/-- The witness of C19: the empty packet after `configure("10.0.0.1")` on a
fresh element. -/
theorem simple_action_reads_in_range_witness :
    ∃ a, simple_action in_cksum
      (configure confparse "10.0.0.1".toList (CheckIPHeader.ctor 7)).elt empty_packet = some a :=
  (simple_action_reads_in_range confparse in_cksum "10.0.0.1".toList (CheckIPHeader.ctor 7)
    empty_packet (by rw [configure_scenario_b])).1

/-- C20: there is a packet that `simple_action` accepts although its
total-length field (65535) is greater than its actual length (20 bytes);
on a configured element the seven guards decide, and none of them compares
the total-length field with the number of bytes present. -/
theorem accepts_total_length_beyond_packet :
    (∃ p : Packet,
      simple_action in_cksum scenario_a p =
        some { elt := scenario_a, events := [], ret := some (p.set_ip_header 0) } ∧
      p.length < ip_len p.data) ∧
    (∀ (ck : List Byte → Nat) (e : CheckIPHeader) (p : Packet), e.configured →
      guards ck e p.data → p.length < ip_len p.data →
      simple_action ck e p = some { elt := e, events := [], ret := some (p.set_ip_header 0) }) :=
  ⟨⟨oversize_packet, by decide, by decide⟩,
    fun ck e p hc hg _ => simple_action_accept ck e p hc hg⟩

end Click
